import Mathlib

/-!
# copc-lib `PartsReader`: a shallow embedding and its verified properties

The development follows `src/python/parts_reader.cpp`, `src/python/parts_reader.hpp`
and `src/cpp/include/copc-lib/las/vlr.hpp`.

* `std::string` buffers are lists of bytes, `std::istringstream` is `IStream`
  (buffer, get position, failbit, eofbit) with `read`, `tellg` and the two `seekg`
  overloads.
* `std::map<uint64_t, las::VlrHeader>` is `Catalog`: a key-ordered association list
  with the non-overwriting `insert` and the inserting `operator[]` of `std::map`.
* A member function that can throw returns a `Res`: the outcome (`Except`) together
  with the object state after the call, so that what a failed call leaves behind can
  be stated.
* The decoders of the lazperf library and the parts of copc-lib that are not in the
  three files above are the fields of `Ext`; `lazperf` is the instance with the
  LAS 1.4 / COPC 1.0 layouts, used for the concrete evaluations.
* The members of the base class and of the hierarchy classes that
  `GetAllChildrenOfPage` calls are the fields of `Base`; `specBase` is the instance
  with the two hierarchy walks as the spec describes them.
-/

namespace copc

/-! ## Bytes and machine integers -/

/-- One `char` of a `std::string`. -/
abbrev Byte := Fin 256

/-- Value of a `uint64_t` converted to the signed 64-bit `std::streamoff`. -/
def toStreamOff (n : Nat) : Int :=
  if n % 2 ^ 64 < 2 ^ 63 then ((n % 2 ^ 64 : Nat) : Int) else ((n % 2 ^ 64 : Nat) : Int) - 2 ^ 64

/-- Value of a signed integer converted to `uint64_t`. -/
def toU64 (i : Int) : Nat := (i % 2 ^ 64).toNat

/-- Value of a signed integer narrowed to `int32_t`. -/
def toI32 (i : Int) : Int :=
  if i % 2 ^ 32 < 2 ^ 31 then i % 2 ^ 32 else i % 2 ^ 32 - 2 ^ 32

/-- Difference of two `uint64_t` values, as `uint64_t`. -/
def subU64 (a b : Nat) : Nat := (a % 2 ^ 64 + 2 ^ 64 - b % 2 ^ 64) % 2 ^ 64

/-- Sum of two `uint64_t` values, as `uint64_t`. -/
def addU64 (a b : Nat) : Nat := (a + b) % 2 ^ 64

/-! ## `std::istringstream` -/

/-- Input string stream: the buffer, the get position and the two state bits the
code can set (`failbit`, `eofbit`). -/
structure IStream where
  data : List Byte
  pos : Nat
  failbit : Bool
  eofbit : Bool
deriving DecidableEq, Repr

namespace IStream

/-- Stream freshly constructed on a string: position 0, state good. -/
def ofString (s : List Byte) : IStream := ⟨s, 0, false, false⟩

/-- The `good()` test: no state bit set. -/
def good (s : IStream) : Bool := !s.failbit && !s.eofbit

/-- The call `tellg()`: the sentry sets failbit on a stream that is not good, and a
failed stream reports `pos_type(-1)`. -/
def tellg (s : IStream) : Int × IStream :=
  if s.good then ((s.pos : Int), s) else (-1, { s with failbit := true })

/-- The call `seekg(pos)`: clears eofbit; on a failed stream nothing else happens;
a target outside `[0, size]` sets failbit. -/
def seekgPos (s : IStream) (p : Int) : IStream :=
  if s.failbit then { s with eofbit := false }
  else if 0 ≤ p ∧ p ≤ (s.data.length : Int) then { s with eofbit := false, pos := p.toNat }
  else { s with eofbit := false, failbit := true }

/-- The call `seekg(off, std::ios::cur)`: as `seekgPos`, the target being the current
position plus `off`. -/
def seekgCur (s : IStream) (off : Int) : IStream :=
  if s.failbit then { s with eofbit := false }
  else if 0 ≤ (s.pos : Int) + off ∧ (s.pos : Int) + off ≤ (s.data.length : Int) then
    { s with eofbit := false, pos := ((s.pos : Int) + off).toNat }
  else { s with eofbit := false, failbit := true }

/-- The call `read(buf, n)`: on a stream that is not good nothing is extracted and
failbit is set; otherwise up to `n` bytes are extracted, and a short read sets
failbit and eofbit. Returns the bytes extracted. -/
def read (s : IStream) (n : Nat) : List Byte × IStream :=
  if s.good then
    let got := (s.data.drop s.pos).take n
    if got.length < n then
      (got, { s with pos := s.pos + got.length, failbit := true, eofbit := true })
    else (got, { s with pos := s.pos + n })
  else ([], { s with failbit := true })

end IStream

/-! ## Record headers (`lazperf::vlr_header`, `lazperf::evlr_header`, `las::VlrHeader`) -/

/-- The struct `lazperf::vlr_header`: header of a standard record (16-bit `data_length`). -/
structure vlr_header where
  reserved : Nat
  user_id : List Byte
  record_id : Nat
  data_length : Nat
  description : List Byte
deriving DecidableEq, Repr

/-- The struct `lazperf::evlr_header`: header of an extended record (64-bit `data_length`). -/
structure evlr_header where
  reserved : Nat
  user_id : List Byte
  record_id : Nat
  data_length : Nat
  description : List Byte
deriving DecidableEq, Repr

/-- The class `las::VlrHeader` of `vlr.hpp`: an `evlr_header` with the flag telling
which on-disk shape it came from. -/
structure VlrHeader extends evlr_header where
  evlr_flag : Bool
deriving DecidableEq, Repr

/-- The constructor `VlrHeader() = default`: value-initialised members, `evlr_flag{false}`. -/
def VlrHeader.default : VlrHeader := ⟨⟨0, [], 0, 0, []⟩, false⟩

/-- The constructor `VlrHeader(const lazperf::evlr_header &)` of `vlr.hpp`:
`evlr_flag(true)` and the base copied. -/
def VlrHeader.ofEvlr (h : evlr_header) : VlrHeader := ⟨h, true⟩

/-- Modelled from the spec: the constructor `VlrHeader(const lazperf::vlr_header &)` is
declared in `vlr.hpp` and defined outside `src/`; by the spec it normalises the
standard variant into the one in-memory shape, tagged with the variant that
produced it (flag clear), the fields carried over. -/
def VlrHeader.ofVlr (h : vlr_header) : VlrHeader :=
  ⟨⟨h.reserved, h.user_id, h.record_id, h.data_length, h.description⟩, false⟩

/-! ## `std::map<uint64_t, las::VlrHeader>` -/

/-- The catalog `vlrs_`: the entries of the map in ascending key order. -/
abbrev Catalog := List (Nat × VlrHeader)

/-- The call `std::map::insert`: the entry is put at its place in key order; when the
key is already present the map is left as it is. -/
def mapInsert (k : Nat) (h : VlrHeader) : Catalog → Catalog
  | [] => [(k, h)]
  | (k', h') :: rest =>
    if k < k' then (k, h) :: (k', h') :: rest
    else if k = k' then (k', h') :: rest
    else (k', h') :: mapInsert k h rest

/-- Lookup of a key. -/
def mapFind (k : Nat) : Catalog → Option VlrHeader
  | [] => none
  | (k', h') :: rest => if k = k' then some h' else mapFind k rest

/-- The call `std::map::operator[]`: the mapped value, a value-initialised one being
inserted first when the key is absent. Returns the value and the map afterwards. -/
def mapIndex (c : Catalog) (k : Nat) : VlrHeader × Catalog :=
  match mapFind k c with
  | some h => (h, c)
  | none => (VlrHeader.default, mapInsert k VlrHeader.default c)

/-! ## File header (`lazperf::header14`) -/

/-- The struct `lazperf::header14` (LAS 1.4 public header block). Floating-point
fields are kept as their 64-bit patterns: the code under study only copies them. -/
structure header14 where
  magic : List Byte
  file_source_id : Nat
  global_encoding : Nat
  guid : List Byte
  version_major : Nat
  version_minor : Nat
  system_identifier : List Byte
  generating_software : List Byte
  creation_day : Nat
  creation_year : Nat
  header_size : Nat
  point_offset : Nat
  vlr_count : Nat
  point_format_id : Nat
  point_record_length : Nat
  point_count : Nat
  points_by_return : List Nat
  scale : List Nat
  offset : List Nat
  bounds : List Nat
  wave_offset : Nat
  evlr_offset : Nat
  evlr_count : Nat
  point_count_14 : Nat
  points_by_return_14 : List Nat
deriving DecidableEq, Repr

/-- The constructor `header14()`: the magic `LASF`, every other member zero. -/
def header14.default : header14 :=
  { magic := [76, 65, 83, 70], file_source_id := 0, global_encoding := 0,
    guid := List.replicate 16 0, version_major := 0, version_minor := 0,
    system_identifier := List.replicate 32 0, generating_software := List.replicate 32 0,
    creation_day := 0, creation_year := 0, header_size := 0, point_offset := 0,
    vlr_count := 0, point_format_id := 0, point_record_length := 0, point_count := 0,
    points_by_return := List.replicate 5 0, scale := List.replicate 3 0,
    offset := List.replicate 3 0, bounds := List.replicate 6 0, wave_offset := 0,
    evlr_offset := 0, evlr_count := 0, point_count_14 := 0,
    points_by_return_14 := List.replicate 15 0 }

/-! ## Auxiliary records and the configuration -/

/-- The struct `lazperf::copc_info_vlr`: the COPC info record (floating-point fields
as bit patterns). -/
structure copc_info_vlr where
  center : List Nat
  halfsize : Nat
  spacing : Nat
  root_hier_offset : Nat
  root_hier_size : Nat
  gpstime_minimum : Nat
  gpstime_maximum : Nat
  reserved : List Nat
deriving DecidableEq, Repr

/-- The struct `las::WktVlr` (`lazperf::wkt_vlr`): the coordinate-reference-system text. -/
structure WktVlr where
  wkt : List Byte
deriving DecidableEq, Repr

/-- The constructor `las::WktVlr()`: the empty text. -/
def WktVlr.default : WktVlr := ⟨[]⟩

/-- The struct `lazperf::eb_vlr::ebfield`, with the members compared by the `operator==`
of `vlr.hpp` (floating-point members as bit patterns). -/
structure ebfield where
  reserved : List Nat
  data_type : Nat
  options : Nat
  name : List Byte
  no_data : List Nat
  minval : List Nat
  maxval : List Nat
  scale : List Nat
  offset : List Nat
  description : List Byte
deriving DecidableEq, Repr

/-- The struct `las::EbVlr` (`lazperf::eb_vlr`): the extra-attribute schema. -/
structure EbVlr where
  items : List ebfield
deriving DecidableEq, Repr

/-- The constructor `las::EbVlr()`: the empty schema. -/
def EbVlr.default : EbVlr := ⟨[]⟩

/-- Modelled from the spec: the class `copc::CopcConfig` is defined outside `src/`; by
the spec it is the aggregate of the decoded file header, the info record, the
coordinate-reference-system text and the extra-attribute schema. -/
structure CopcConfig where
  header : header14
  copc_info : copc_info_vlr
  wkt : List Byte
  extra_bytes : EbVlr
deriving DecidableEq, Repr

/-! ## Hierarchy data (`VoxelKey`, `Entry`, `Internal::PageInternal`, `Internal::Hierarchy`) -/

/-- Modelled from the spec: the class `VoxelKey` is defined outside `src/`; by the spec
an octree key is `(level, x, y, z)`, four 32-bit signed integers. -/
structure VoxelKey where
  d : Int
  x : Int
  y : Int
  z : Int
deriving DecidableEq, Repr

/-- Modelled from the spec: the root key `(0, 0, 0, 0)` (`VoxelKey::RootKey()` is defined
outside `src/`). -/
def VoxelKey.RootKey : VoxelKey := ⟨0, 0, 0, 0⟩

/-- Modelled from the spec: the class `Entry` is defined outside `src/`; by the spec a
hierarchy record has the fields `key`, `offset` (u64), `byte_size` (i32) and
`point_count` (i32). -/
structure Entry where
  key : VoxelKey
  offset : Nat
  byte_size : Int
  point_count : Int
deriving DecidableEq, Repr

/-- Modelled from the spec: the class `Internal::PageInternal` is defined outside `src/`;
by the spec a page has a byte range (`offset`, `byte_size`), the `loaded` flag and,
once loaded, the sequence of its decoded entries; it is registered under an octree
key. -/
structure PageInternal where
  key : VoxelKey
  offset : Nat
  byte_size : Int
  loaded : Bool
  entries : List Entry
deriving DecidableEq, Repr

/-- Modelled from the spec: the class `Internal::Hierarchy` is defined outside `src/`; by
the spec it owns the root page and the mapping `seen_pages_` from octree key to
every page discovered so far, the root page being reached under the root key. -/
structure Hierarchy where
  seen_pages_ : List (VoxelKey × PageInternal)
deriving DecidableEq, Repr

/-- Modelled from the spec: the constructor `Hierarchy(root_hier_offset, root_hier_size)`
seeds the hierarchy with the root page, not loaded, at the byte range given by the
info record (the size narrowed to the 32-bit `byte_size`). -/
def Hierarchy.create (root_hier_offset root_hier_size : Nat) : Hierarchy :=
  ⟨[(VoxelKey.RootKey,
      { key := VoxelKey.RootKey, offset := root_hier_offset % 2 ^ 64,
        byte_size := toI32 (root_hier_size : Int), loaded := false, entries := [] })]⟩

/-! ## What the source takes from outside `src/` -/

/-- The decoders of the lazperf library and the members of copc-lib classes that the
source calls and that are not in `src/`.

Each fixed-size lazperf decoder `T::create(std::istream&)` extracts `T::Size` bytes
with one `istream::read` and decodes the fields from the bytes obtained:
`T_Size` is the size and `T_parse` the decoding of the bytes obtained (fewer than
`T_Size` on a short read). `Entry::Unpack` is the same with `Entry::ENTRY_SIZE`.
The decoders of a record body get the stream and the length passed to them and
may throw. `CopcConfig_throws` is the exception, if any, raised while the
configuration is built from the decoded parts (`las::LasHeader::FromLazPerf` and
the constructor of `copc::CopcConfig`). `Entry_IsValid`, `Entry_ToString` and
`Page_IsValid` are the member functions `IsValid` and `ToString` of `Entry` and of
the page. -/
structure Ext where
  header14_Size : Nat
  header14_parse : List Byte → header14
  vlr_header_Size : Nat
  vlr_header_parse : List Byte → vlr_header
  evlr_header_Size : Nat
  evlr_header_parse : List Byte → evlr_header
  COPC_OFFSET : Int
  copc_info_create : IStream → copc_info_vlr × IStream
  WktVlr_create : IStream → Nat → Except String WktVlr × IStream
  EbVlr_create : IStream → Nat → Except String EbVlr × IStream
  CopcConfig_throws : header14 → copc_info_vlr → List Byte → EbVlr → Option String
  ENTRY_SIZE : Nat
  Entry_parse : List Byte → Entry
  Entry_IsValid : Entry → Bool
  Entry_ToString : Entry → String
  Page_IsValid : PageInternal → Bool

/-- The call `lazperf::header14::create(stream)`. -/
def header14.create (E : Ext) (s : IStream) : header14 × IStream :=
  let r := s.read E.header14_Size
  (E.header14_parse r.1, r.2)

/-- The call `lazperf::vlr_header::create(stream)`. -/
def vlr_header.create (E : Ext) (s : IStream) : vlr_header × IStream :=
  let r := s.read E.vlr_header_Size
  (E.vlr_header_parse r.1, r.2)

/-- The call `lazperf::evlr_header::create(stream)`. -/
def evlr_header.create (E : Ext) (s : IStream) : evlr_header × IStream :=
  let r := s.read E.evlr_header_Size
  (E.evlr_header_parse r.1, r.2)

/-- The call `Entry::Unpack(stream)`. -/
def Entry.Unpack (E : Ext) (s : IStream) : Entry × IStream :=
  let r := s.read E.ENTRY_SIZE
  (E.Entry_parse r.1, r.2)

/-! ## `PartsReader` -/

/-- The constant `LAS_HEADER14_LENGTH`. -/
def LAS_HEADER14_LENGTH : Nat := 375

/-- The constant `COPC_VLR_LENGTH`. -/
def COPC_VLR_LENGTH : Nat := 160

/-- The data members of `PartsReader` (`hierarchy_` is the one inherited from the base
class; `copc_info_` is declared and never used). -/
structure PartsReader where
  point_offset : Nat
  evlr_offset : Nat
  evlr_data_ : List Byte
  config_ : Option CopcConfig
  lazperf_header_ : header14
  copc_info_ : Option copc_info_vlr
  vlrs_ : Catalog
  hierarchy_ : Option Hierarchy
deriving DecidableEq, Repr

/-- The constructor `PartsReader() = default`. -/
def PartsReader.default : PartsReader :=
  { point_offset := 0, evlr_offset := 0, evlr_data_ := [], config_ := none,
    lazperf_header_ := header14.default, copc_info_ := none, vlrs_ := [],
    hierarchy_ := none }

deriving instance DecidableEq for Except

/-- Result of a call that can throw: what it returned or the message of the
`std::runtime_error`, and the state it left. -/
structure Res (σ α : Type) where
  result : Except String α
  state : σ

/-- The error message of the length check of `ReadHeader`. -/
def headerLengthError : String :=
  "PartsReader::ReadHeader: header_with_copc_vlr must be " ++
    toString (LAS_HEADER14_LENGTH + COPC_VLR_LENGTH) ++ " bytes."

/-- The member function `PartsReader::ReadHeader`. -/
def ReadHeader (E : Ext) (self : PartsReader) (header_with_copc_vlr : List Byte) :
    Res PartsReader Unit :=
  let header_length := LAS_HEADER14_LENGTH + COPC_VLR_LENGTH
  if header_with_copc_vlr.length ≠ header_length then
    ⟨.error headerLengthError, self⟩
  else
    let stream := IStream.ofString header_with_copc_vlr
    let created := (header14.create E stream).1
    -- fix point_format_id when compressed
    let fixed := { created with point_format_id := created.point_format_id &&& 0x3f }
    ⟨.ok (), { self with lazperf_header_ := fixed,
                         point_offset := fixed.point_offset,
                         evlr_offset := fixed.evlr_offset }⟩

/-- The static member function `PartsReader::FetchVlr`: the key of the first entry, in
map order, whose header has the given ids; 0 when the loop ends. -/
def FetchVlr (vlrs : Catalog) (user_id : List Byte) (record_id : Nat) : Nat :=
  match vlrs with
  | [] => 0
  | (offset, vlr_header) :: rest =>
    if vlr_header.user_id = user_id ∧ vlr_header.record_id = record_id then offset
    else FetchVlr rest user_id record_id

/-- Bytes of an ASCII string literal. -/
def ascii (s : String) : List Byte := s.data.map (fun c => Fin.ofNat c.toNat)

/-- Result of one of the two body readers: what it returned or threw, and the stream
and the catalog (both passed by reference) after the call. -/
structure VlrRead (α : Type) where
  result : Except String α
  stream : IStream
  vlrs : Catalog

/-- The member function `PartsReader::ReadWktVlr`. -/
def ReadWktVlr (E : Ext) (vlrs : Catalog) (evlr_stream : IStream) : VlrRead WktVlr :=
  let offset := FetchVlr vlrs (ascii "LASF_Projection") 2112
  if offset ≠ 0 then
    let evlr_stream := evlr_stream.seekgPos (toStreamOff (addU64 offset E.evlr_header_Size))
    let indexed := mapIndex vlrs offset
    let created := E.WktVlr_create evlr_stream indexed.1.data_length
    ⟨created.1, created.2, indexed.2⟩
  else ⟨.ok WktVlr.default, evlr_stream, vlrs⟩

/-- The member function `PartsReader::ReadExtraBytesVlr`. -/
def ReadExtraBytesVlr (E : Ext) (vlrs : Catalog) (vlr_stream : IStream) : VlrRead EbVlr :=
  let offset := FetchVlr vlrs (ascii "LASF_Spec") 4
  if offset ≠ 0 then
    let vlr_stream := vlr_stream.seekgPos (toStreamOff (addU64 offset E.vlr_header_Size))
    let indexed := mapIndex vlrs offset
    let created := E.EbVlr_create vlr_stream indexed.1.data_length
    ⟨created.1, created.2, indexed.2⟩
  else ⟨.ok EbVlr.default, vlr_stream, vlrs⟩

/-- The first loop of `InitCopcConfig`, run `n` more times: the position is taken, a
standard header decoded and inserted at that position, the body skipped. -/
def vlrLoop (E : Ext) : Nat → IStream → Catalog → IStream × Catalog
  | 0, vlr_stream, vlrs => (vlr_stream, vlrs)
  | n + 1, vlr_stream, vlrs =>
    let told := vlr_stream.tellg
    let cur_pos := toU64 told.1
    let created := vlr_header.create E told.2
    let h := VlrHeader.ofVlr created.1
    let vlrs := mapInsert cur_pos h vlrs
    let vlr_stream := created.2.seekgCur (toStreamOff h.data_length)
    vlrLoop E n vlr_stream vlrs

/-- The second loop of `InitCopcConfig`, run `n` more times: as the first, on the
extended buffer and with extended headers. -/
def evlrLoop (E : Ext) : Nat → IStream → Catalog → IStream × Catalog
  | 0, evlr_stream, vlrs => (evlr_stream, vlrs)
  | n + 1, evlr_stream, vlrs =>
    let told := evlr_stream.tellg
    let cur_pos := toU64 told.1
    let created := evlr_header.create E told.2
    let h := VlrHeader.ofEvlr created.1
    let vlrs := mapInsert cur_pos h vlrs
    let evlr_stream := created.2.seekgCur (toStreamOff h.data_length)
    evlrLoop E n evlr_stream vlrs

/-- The member function `PartsReader::InitCopcConfig`. -/
def InitCopcConfig (E : Ext) (self : PartsReader) (vlr_data evlr_data : List Byte) :
    Res PartsReader Unit :=
  let self := { self with evlr_data_ := evlr_data }
  let vlr_stream := (IStream.ofString vlr_data).seekgPos 0
  let self := { self with vlrs_ := [] }
  let looped := vlrLoop E self.lazperf_header_.vlr_count vlr_stream self.vlrs_
  let vlr_stream := looped.1
  let evlr_stream := IStream.ofString evlr_data
  let elooped := evlrLoop E self.lazperf_header_.evlr_count evlr_stream looped.2
  let evlr_stream := elooped.1
  let self := { self with vlrs_ := elooped.2 }
  let vlr_stream := vlr_stream.seekgPos (E.COPC_OFFSET - (LAS_HEADER14_LENGTH : Int))
  let info := E.copc_info_create vlr_stream
  let copc_info := info.1
  let vlr_stream := info.2.seekgPos 0
  let evlr_stream := evlr_stream.seekgPos 0
  let wktRead := ReadWktVlr E self.vlrs_ evlr_stream
  let self := { self with vlrs_ := wktRead.vlrs }
  match wktRead.result with
  | .error e => ⟨.error e, self⟩
  | .ok wkt =>
    let ebRead := ReadExtraBytesVlr E self.vlrs_ vlr_stream
    let self := { self with vlrs_ := ebRead.vlrs }
    match ebRead.result with
    | .error e => ⟨.error e, self⟩
    | .ok eb =>
      match E.CopcConfig_throws self.lazperf_header_ copc_info wkt.wkt eb with
      | some e => ⟨.error e, self⟩
      | none =>
        let config : CopcConfig := ⟨self.lazperf_header_, copc_info, wkt.wkt, eb⟩
        let hierarchy := Hierarchy.create copc_info.root_hier_offset copc_info.root_hier_size
        ⟨.ok (), { self with config_ := some config, hierarchy_ := some hierarchy }⟩

/-- The loop of `ReadPage`, run `n` more times: an entry is unpacked; an invalid one
ends the call with that entry, a valid one is appended to `out`. -/
def readEntries (E : Ext) : Nat → IStream → List Entry → Except Entry (List Entry)
  | 0, _, out => .ok out
  | n + 1, evlr_stream, out =>
    let unpacked := Entry.Unpack E evlr_stream
    if E.Entry_IsValid unpacked.1 = false then .error unpacked.1
    else readEntries E n unpacked.2 (out ++ [unpacked.1])

/-- The error message of the page check of `ReadPage`. -/
def invalidPageError : String := "Reader::ReadPage: Cannot load an invalid page."

/-- The member function `PartsReader::ReadPage`. The page is held through a
`shared_ptr`, so the state after the call is the page together with the reader. -/
def ReadPage (E : Ext) (self : PartsReader) (page : PageInternal) :
    Res (PageInternal × PartsReader) (List Entry) :=
  if E.Page_IsValid page = false then ⟨.error invalidPageError, (page, self)⟩
  else
    let evlr_stream := IStream.ofString self.evlr_data_
    -- reset the stream to the page's offset
    let evlr_stream := evlr_stream.seekgPos (toStreamOff (subU64 page.offset self.evlr_offset))
    let num_entries := Int.tdiv page.byte_size (E.ENTRY_SIZE : Int)
    match readEntries E num_entries.toNat evlr_stream [] with
    | .error e => ⟨.error ("Entry is invalid! " ++ E.Entry_ToString e), (page, self)⟩
    | .ok out => ⟨.ok out, ({ page with loaded := true }, self)⟩

/-! ## The instance for lazperf and copc-lib (LAS 1.4, COPC 1.0) -/

/-- Little-endian value of a run of bytes. -/
def leNat : List Byte → Nat
  | [] => 0
  | b :: bs => b.val + 256 * leNat bs

/-- The bytes obtained, in a zero-initialised buffer of `n` bytes. -/
def zeroPad (n : Nat) (bs : List Byte) : List Byte :=
  (bs ++ List.replicate (n - bs.length) 0).take n

/-- The `n` bytes at offset `off`. -/
def bytesAt (bs : List Byte) (off n : Nat) : List Byte := (bs.drop off).take n

/-- Unsigned little-endian field of `n` bytes at offset `off`. -/
def uintAt (bs : List Byte) (off n : Nat) : Nat := leNat (bytesAt bs off n)

/-- Signed 32-bit little-endian field at offset `off`. -/
def int32At (bs : List Byte) (off : Nat) : Int := toI32 (uintAt bs off 4 : Nat)

/-- Fixed-width string field, trailing NUL bytes removed. -/
def stringAt (bs : List Byte) (off n : Nat) : List Byte :=
  ((bytesAt bs off n).reverse.dropWhile (fun b => b = 0)).reverse

/-- The `k` consecutive unsigned fields of `n` bytes each from offset `off`. -/
def uintsAt (bs : List Byte) (off n : Nat) : Nat → List Nat
  | 0 => []
  | k + 1 => uintAt bs off n :: uintsAt bs (off + n) n k

/-- Layout of the LAS 1.4 public header block (375 bytes). -/
def las14_header_parse (got : List Byte) : header14 :=
  let b := zeroPad 375 got
  { magic := bytesAt b 0 4, file_source_id := uintAt b 4 2, global_encoding := uintAt b 6 2,
    guid := bytesAt b 8 16, version_major := uintAt b 24 1, version_minor := uintAt b 25 1,
    system_identifier := bytesAt b 26 32, generating_software := bytesAt b 58 32,
    creation_day := uintAt b 90 2, creation_year := uintAt b 92 2,
    header_size := uintAt b 94 2, point_offset := uintAt b 96 4, vlr_count := uintAt b 100 4,
    point_format_id := uintAt b 104 1, point_record_length := uintAt b 105 2,
    point_count := uintAt b 107 4, points_by_return := uintsAt b 111 4 5,
    scale := uintsAt b 131 8 3, offset := uintsAt b 155 8 3, bounds := uintsAt b 179 8 6,
    wave_offset := uintAt b 227 8, evlr_offset := uintAt b 235 8, evlr_count := uintAt b 243 4,
    point_count_14 := uintAt b 247 8, points_by_return_14 := uintsAt b 255 8 15 }

/-- Layout of a standard record header (54 bytes). -/
def las14_vlr_header_parse (got : List Byte) : vlr_header :=
  let b := zeroPad 54 got
  { reserved := uintAt b 0 2, user_id := stringAt b 2 16, record_id := uintAt b 18 2,
    data_length := uintAt b 20 2, description := stringAt b 22 32 }

/-- Layout of an extended record header (60 bytes). -/
def las14_evlr_header_parse (got : List Byte) : evlr_header :=
  let b := zeroPad 60 got
  { reserved := uintAt b 0 2, user_id := stringAt b 2 16, record_id := uintAt b 18 2,
    data_length := uintAt b 20 8, description := stringAt b 28 32 }

/-- Layout of the COPC info record (160 bytes). -/
def copc_info_parse (got : List Byte) : copc_info_vlr :=
  let b := zeroPad 160 got
  { center := uintsAt b 0 8 3, halfsize := uintAt b 24 8, spacing := uintAt b 32 8,
    root_hier_offset := uintAt b 40 8, root_hier_size := uintAt b 48 8,
    gpstime_minimum := uintAt b 56 8, gpstime_maximum := uintAt b 64 8,
    reserved := uintsAt b 72 8 11 }

/-- Layout of one extra-attribute descriptor (192 bytes). -/
def ebfield_parse (got : List Byte) : ebfield :=
  let b := zeroPad 192 got
  { reserved := uintsAt b 0 1 2, data_type := uintAt b 2 1, options := uintAt b 3 1,
    name := stringAt b 4 32, no_data := uintsAt b 40 8 3, minval := uintsAt b 64 8 3,
    maxval := uintsAt b 88 8 3, scale := uintsAt b 112 8 3, offset := uintsAt b 136 8 3,
    description := stringAt b 160 32 }

/-- The `k` descriptors read one after the other. -/
def ebfields_read : Nat → IStream → List ebfield × IStream
  | 0, s => ([], s)
  | k + 1, s =>
    let r := s.read 192
    let rest := ebfields_read k r.2
    (ebfield_parse r.1 :: rest.1, rest.2)

/-- Layout of one hierarchy entry (32 bytes). -/
def entry_parse (got : List Byte) : Entry :=
  let b := zeroPad 32 got
  { key := ⟨int32At b 0, int32At b 4, int32At b 8, int32At b 12⟩,
    offset := uintAt b 16 8, byte_size := int32At b 24, point_count := int32At b 28 }

/-- Validity of a key as the instance `lazperf` below takes it: no negative component.
The member `VoxelKey::IsValid` is not in `src/`; the theorems take validity as a
parameter, and the spec's range check is `VoxelKey.inRange`. -/
def VoxelKey.IsValid (k : VoxelKey) : Bool :=
  decide (0 ≤ k.d) && decide (0 ≤ k.x) && decide (0 ≤ k.y) && decide (0 ≤ k.z)

/-- The instance of `Ext` with the LAS 1.4 and COPC 1.0 layouts: sizes 375, 54, 60 and
32, `COPC_OFFSET` 429, a text record read as its `data_length` bytes, a schema
record as `data_length / 192` descriptors, an entry valid when its size and key
are not negative, a page valid when it is loaded or its size is not negative, and
its key is valid. The construction of the configuration is taken not to throw. -/
def lazperf : Ext :=
  { header14_Size := 375
    header14_parse := las14_header_parse
    vlr_header_Size := 54
    vlr_header_parse := las14_vlr_header_parse
    evlr_header_Size := 60
    evlr_header_parse := las14_evlr_header_parse
    COPC_OFFSET := 429
    copc_info_create := fun s => let r := s.read 160; (copc_info_parse r.1, r.2)
    WktVlr_create := fun s n => let r := s.read n; (.ok ⟨zeroPad n r.1⟩, r.2)
    EbVlr_create := fun s n => let r := ebfields_read (n / 192) s; (.ok ⟨r.1⟩, r.2)
    CopcConfig_throws := fun _ _ _ _ => none
    ENTRY_SIZE := 32
    Entry_parse := entry_parse
    Entry_IsValid := fun e => decide (0 ≤ e.byte_size) && e.key.IsValid
    Entry_ToString := fun _ => "Entry"
    Page_IsValid := fun p => (p.loaded || decide (0 ≤ p.byte_size)) && p.key.IsValid }

/-! ## Building concrete buffers -/

/-- The `n` little-endian bytes of a value. -/
def leBytes : Nat → Nat → List Byte
  | 0, _ => []
  | n + 1, v => Fin.ofNat (v % 256) :: leBytes n (v / 256)

/-- An ASCII text in a field of `n` bytes, NUL padded. -/
def textField (n : Nat) (s : String) : List Byte := zeroPad n (ascii s)

/-- Bytes of a standard record header. -/
def vlrHeaderBytes (user_id : String) (record_id data_length : Nat) : List Byte :=
  leBytes 2 0 ++ textField 16 user_id ++ leBytes 2 record_id ++ leBytes 2 data_length ++
    textField 32 ""

/-- Bytes of an extended record header. -/
def evlrHeaderBytes (user_id : String) (record_id data_length : Nat) : List Byte :=
  leBytes 2 0 ++ textField 16 user_id ++ leBytes 2 record_id ++ leBytes 8 data_length ++
    textField 32 ""

/-- Bytes of a file header followed by an info record (535 bytes): every field zero
but the magic, the point format byte, the two record counts and the two offsets. -/
def headerBytes (point_format point_offset vlr_count evlr_offset evlr_count : Nat) :
    List Byte :=
  ascii "LASF" ++ List.replicate 92 0 ++ leBytes 4 point_offset ++ leBytes 4 vlr_count ++
    leBytes 1 point_format ++ List.replicate 130 0 ++ leBytes 8 evlr_offset ++
    leBytes 4 evlr_count ++ List.replicate 128 0 ++ List.replicate 160 0

/-- Bytes of one hierarchy entry. -/
def entryBytes (d x y z : Nat) (offset byte_size point_count : Nat) : List Byte :=
  leBytes 4 d ++ leBytes 4 x ++ leBytes 4 y ++ leBytes 4 z ++ leBytes 8 offset ++
    leBytes 4 byte_size ++ leBytes 4 point_count

/-! ## Buffers built from records -/

/-- A record as it is laid out in a buffer: the bytes of its header and the bytes of
its body. -/
abbrev RecordBytes := List Byte × List Byte

/-- The buffer made of the records one after the other. -/
def concatRecords : List RecordBytes → List Byte
  | [] => []
  | r :: rs => r.1 ++ r.2 ++ concatRecords rs

/-- The byte offsets at which the headers of the records are placed in a buffer that
starts at offset `start`. -/
def recordOffsets (start : Nat) : List RecordBytes → List Nat
  | [] => []
  | r :: rs => start :: recordOffsets (start + r.1.length + r.2.length) rs

/-- The standard headers of the records, as the catalog stores them. -/
def standardHeaders (E : Ext) (recs : List RecordBytes) : List VlrHeader :=
  recs.map (fun r => VlrHeader.ofVlr (E.vlr_header_parse r.1))

/-- The extended headers of the records, as the catalog stores them. -/
def extendedHeaders (E : Ext) (recs : List RecordBytes) : List VlrHeader :=
  recs.map (fun r => VlrHeader.ofEvlr (E.evlr_header_parse r.1))

/-- A well-formed standard record: a header of `vlr_header::Size` bytes declaring as
`data_length` (16 bits) the length of the body that follows it. -/
def StandardRecord (E : Ext) (r : RecordBytes) : Prop :=
  r.1.length = E.vlr_header_Size ∧ (E.vlr_header_parse r.1).data_length = r.2.length ∧
    r.2.length < 2 ^ 16

/-- A well-formed extended record: a header of `evlr_header::Size` bytes declaring as
`data_length` (64 bits) the length of the body that follows it. -/
def ExtendedRecord (E : Ext) (r : RecordBytes) : Prop :=
  r.1.length = E.evlr_header_Size ∧ (E.evlr_header_parse r.1).data_length = r.2.length

instance (E : Ext) (r : RecordBytes) : Decidable (StandardRecord E r) := by
  unfold StandardRecord
  exact inferInstance

instance (E : Ext) (r : RecordBytes) : Decidable (ExtendedRecord E r) := by
  unfold ExtendedRecord
  exact inferInstance

/-! ## Concrete files used in the evaluations -/

/-- Reader state after `ReadHeader` on a header with point format 6 and the given
record counts. -/
def readerAfterHeader (vlr_count evlr_count : Nat) : PartsReader :=
  (ReadHeader lazperf PartsReader.default (headerBytes 6 1000 vlr_count 5000 evlr_count)).state

/-- The COPC info record as a standard record: header `("copc", 1)`, body of 160 bytes. -/
def copcInfoRecord : RecordBytes := (vlrHeaderBytes "copc" 1 160, List.replicate 160 0)

/-- An extra-attribute schema as a standard record: header `("LASF_Spec", 4)`, a body of
one descriptor (192 bytes). -/
def schemaRecord : RecordBytes := (vlrHeaderBytes "LASF_Spec" 4 192, List.replicate 192 0)

/-- A coordinate-reference-system text as a standard record: header
`("LASF_Projection", 2112)`, body `EPSG`. -/
def wktStandardRecord : RecordBytes := (vlrHeaderBytes "LASF_Projection" 2112 4, ascii "EPSG")

/-- A coordinate-reference-system text as an extended record: header
`("LASF_Projection", 2112)`, body `EPSG`. -/
def wktExtendedRecord : RecordBytes := (evlrHeaderBytes "LASF_Projection" 2112 4, ascii "EPSG")

/-- A hierarchy page as an extended record: header `("copc", 1000)`, a body of seven
entries (224 bytes), each with key `(1, 0, 0, 0)`, 65 bytes and 7 points. -/
def hierarchyRecord : RecordBytes :=
  (evlrHeaderBytes "copc" 1000 224,
    (List.replicate 7 (entryBytes 1 0 0 0 2000 65 7)).foldr (fun e acc => e ++ acc) [])

/-! ## Properties asked of the two body readers -/

/-- The key order of a `std::map`: strictly ascending, no key twice. -/
def SortedKeys (vlrs : Catalog) : Prop := vlrs.Pairwise (fun a b => a.1 < b.1)

instance (vlrs : Catalog) : Decidable (SortedKeys vlrs) := by
  unfold SortedKeys
  exact inferInstance

/-- The header a body reader gets by `vlrs[offset]` for the offset `FetchVlr` located. -/
def locatedHeader (vlrs : Catalog) (user_id : List Byte) (record_id : Nat) : VlrHeader :=
  (mapIndex vlrs (FetchVlr vlrs user_id record_id)).1

/-- Variant matching for `ReadWktVlr`, which reads the extended buffer: when it decodes a
body (the located offset is not 0) the located header is an extended one. -/
def WktReadMatchesVariant (vlrs : Catalog) : Prop :=
  FetchVlr vlrs (ascii "LASF_Projection") 2112 ≠ 0 →
    (locatedHeader vlrs (ascii "LASF_Projection") 2112).evlr_flag = true

/-- Variant matching for `ReadExtraBytesVlr`, which reads the standard buffer: when it
decodes a body (the located offset is not 0) the located header is a standard one. -/
def EbReadMatchesVariant (vlrs : Catalog) : Prop :=
  FetchVlr vlrs (ascii "LASF_Spec") 4 ≠ 0 →
    (locatedHeader vlrs (ascii "LASF_Spec") 4).evlr_flag = false

instance (vlrs : Catalog) : Decidable (WktReadMatchesVariant vlrs) := by
  unfold WktReadMatchesVariant
  exact inferInstance

instance (vlrs : Catalog) : Decidable (EbReadMatchesVariant vlrs) := by
  unfold EbReadMatchesVariant
  exact inferInstance

/-! ## The entries of a page -/

/-- Number of entries `ReadPage` decodes for a page: `byte_size / ENTRY_SIZE` in the
integer division of the source (no entry when the quotient is not positive). -/
def pageEntryCount (E : Ext) (page : PageInternal) : Nat :=
  (Int.tdiv page.byte_size (E.ENTRY_SIZE : Int)).toNat

/-- Position of a page in the extended buffer: its absolute offset minus `evlr_offset`,
in 64-bit unsigned arithmetic. -/
def pageStart (self : PartsReader) (page : PageInternal) : Nat :=
  subU64 page.offset self.evlr_offset

/-- The `i`-th entry of a page: the decoding of the `ENTRY_SIZE` bytes of the extended
buffer at `pageStart + i * ENTRY_SIZE`. -/
def pageEntry (E : Ext) (self : PartsReader) (page : PageInternal) (i : Nat) : Entry :=
  E.Entry_parse (bytesAt self.evlr_data_ (pageStart self page + i * E.ENTRY_SIZE) E.ENTRY_SIZE)

/-- The entries decoded from `k` consecutive runs of `ENTRY_SIZE` bytes of a buffer,
from position `q`. -/
def entriesAt (E : Ext) (data : List Byte) : Nat → Nat → List Entry
  | _, 0 => []
  | q, k + 1 => E.Entry_parse (bytesAt data q E.ENTRY_SIZE) :: entriesAt E data (q + E.ENTRY_SIZE) k

/-- A stream on `data` stands at the virtual position `q`: either it is good and its get
position is `q`, or it has failed and `q` is at or past the end of the buffer. -/
def StreamAt (data : List Byte) (s : IStream) (q : Nat) : Prop :=
  s.data = data ∧ ((s.failbit = false ∧ s.eofbit = false ∧ s.pos = q) ∨
    (s.failbit = true ∧ data.length ≤ q))

/-- A page on the hierarchy record of the concrete file: its seven entries start at
absolute offset 5060, the extended region starting at 5000. -/
def hierarchyPage : PageInternal :=
  { key := VoxelKey.RootKey, offset := 5060, byte_size := 224, loaded := false, entries := [] }

/-- Reader state after `ReadHeader` and `InitCopcConfig` on the concrete file with the
info record and the hierarchy record. -/
def readerWithHierarchy : PartsReader :=
  (InitCopcConfig lazperf (readerAfterHeader 1 1) (concatRecords [copcInfoRecord])
    (concatRecords [hierarchyRecord])).state

/-- Another hierarchy page as an extended record, of the same size as `hierarchyRecord`:
its seven entries have 9 points each. -/
def hierarchyRecordB : RecordBytes :=
  (evlrHeaderBytes "copc" 1000 224,
    (List.replicate 7 (entryBytes 1 0 0 0 2000 65 9)).foldr (fun e acc => e ++ acc) [])

/-- The reader `readerWithHierarchy` after a second `InitCopcConfig`, on the extended
buffer holding `hierarchyRecordB`. -/
def readerWithHierarchyB : PartsReader :=
  (InitCopcConfig lazperf readerWithHierarchy (concatRecords [copcInfoRecord])
    (concatRecords [hierarchyRecordB])).state

/-! ## The hierarchy traversal (`GetAllChildrenOfPage`) -/

deriving instance DecidableEq for Res

/-- Modelled from the spec: the class `Node` is defined outside `src/`; by the spec the
node a key resolves to is a leaf point-entry, with the fields of an entry. -/
structure Node where
  key : VoxelKey
  offset : Nat
  byte_size : Int
  point_count : Int
deriving DecidableEq, Repr

/-- The members of the base class of `PartsReader` and of the hierarchy classes that
`GetAllChildrenOfPage` calls and that are not in `src/`: `VoxelKey::IsValid`,
`Node::IsValid`, `FindNode`, `Hierarchy::PageExists`, the lookup
`hierarchy_->seen_pages_[key]` and `LoadPageHierarchy`. The two functions that walk
the hierarchy get the reader and give `none` when they do not return, and otherwise
what they returned or threw with the reader they left; `LoadPageHierarchy` gets the
list `out` it appends to and returns it. -/
structure Base where
  Key_IsValid : VoxelKey → Bool
  Node_IsValid : Node → Bool
  FindNode : PartsReader → VoxelKey → Option (Res PartsReader Node)
  PageExists : PartsReader → VoxelKey → Bool
  seen_pages_at : PartsReader → VoxelKey → PageInternal
  LoadPageHierarchy :
    PartsReader → PageInternal → List Node → Option (Res PartsReader (List Node))

/-- The member function `PartsReader::GetAllChildrenOfPage`; `none` when one of the two
hierarchy walks it calls does not return. -/
def GetAllChildrenOfPage (B : Base) (self : PartsReader) (key : VoxelKey) :
    Option (Res PartsReader (List Node)) :=
  let out : List Node := []
  if B.Key_IsValid key = false then some ⟨.ok out, self⟩
  else
    -- Load all pages upto the current key
    match B.FindNode self key with
    | none => none
    | some found =>
      match found.result with
      | .error e => some ⟨.error e, found.state⟩
      | .ok node =>
        -- If a page with this key doesn't exist, check if the node itself exists
        if B.PageExists found.state key = false then
          some ⟨.ok (if B.Node_IsValid node then out ++ [node] else out), found.state⟩
        else
          -- If the page does exist, read all its children and subpages
          B.LoadPageHierarchy found.state (B.seen_pages_at found.state key) out

/-- The member function `PartsReader::GetAllNodes` of `parts_reader.hpp`. -/
def GetAllNodes (B : Base) (self : PartsReader) : Option (Res PartsReader (List Node)) :=
  GetAllChildrenOfPage B self VoxelKey.RootKey

/-! ### The hierarchy walks, from the spec -/

/-- The node made of a leaf entry. -/
def Node.ofEntry (e : Entry) : Node := ⟨e.key, e.offset, e.byte_size, e.point_count⟩

/-- The entry a node was made of. -/
def Node.toEntry (n : Node) : Entry := ⟨n.key, n.offset, n.byte_size, n.point_count⟩

/-- Modelled from the spec: the explicit "not found" result of `resolve`, a node with
the sentinel key of level -1. -/
def Node.notFound : Node := ⟨⟨-1, -1, -1, -1⟩, 0, -1, -1⟩

/-- Modelled from the spec: validity of an octree key, level at least 0 and `x`, `y`, `z`
within the cubic range implied by `2^level`. -/
def VoxelKey.inRange (k : VoxelKey) : Bool :=
  decide (0 ≤ k.d) &&
    decide (0 ≤ k.x ∧ k.x < 2 ^ k.d.toNat) &&
    decide (0 ≤ k.y ∧ k.y < 2 ^ k.d.toNat) &&
    decide (0 ≤ k.z ∧ k.z < 2 ^ k.d.toNat)

/-- Modelled from the spec: `a` is `k` or an ancestor of `k` in the octree (the cell of `k`
lies in the cell of `a`). -/
def VoxelKey.isAncestorOrSelf (a k : VoxelKey) : Bool :=
  decide (a.d ≤ k.d) &&
    decide (a.x = k.x / 2 ^ (k.d - a.d).toNat) &&
    decide (a.y = k.y / 2 ^ (k.d - a.d).toNat) &&
    decide (a.z = k.z / 2 ^ (k.d - a.d).toNat)

/-- The page registered in `seen_pages_` under a key, if any. -/
def Hierarchy.find (h : Hierarchy) (key : VoxelKey) : Option PageInternal :=
  (h.seen_pages_.find? (fun p => decide (p.1 = key))).map Prod.snd

/-- The hierarchy with the page registered under `page.key` replaced by `page` (added when
the key has no page). -/
def Hierarchy.store (h : Hierarchy) (page : PageInternal) : Hierarchy :=
  if (h.find page.key).isSome then
    ⟨h.seen_pages_.map (fun p => if p.1 = page.key then (p.1, page) else p)⟩
  else ⟨h.seen_pages_ ++ [(page.key, page)]⟩

/-- The page an entry that denotes a sub-page refers to: the entry's key and byte range,
not loaded. -/
def pageOfEntry (e : Entry) : PageInternal :=
  { key := e.key, offset := e.offset, byte_size := e.byte_size, loaded := false, entries := [] }

/-- Modelled from the spec: a sub-page discovered in a page is registered into
`seen_pages` under its key; a key that already has a page keeps it. -/
def Hierarchy.register (h : Hierarchy) (e : Entry) : Hierarchy :=
  if (h.find e.key).isSome then h else ⟨h.seen_pages_ ++ [(e.key, pageOfEntry e)]⟩

/-- The page registered in the reader's hierarchy under a key, if any. -/
def seenPage (self : PartsReader) (key : VoxelKey) : Option PageInternal :=
  self.hierarchy_.bind (fun h => h.find key)

/-- Modelled from the spec: `load_page` with its cache. A loaded page gives its cached
entries without any read; otherwise `ReadPage` decodes them, and on success they are
cached on the page, marked loaded, and the sub-pages among them are registered. -/
def loadPageCached (E : Ext) (isPage : Entry → Bool) (self : PartsReader)
    (page : PageInternal) : Res PartsReader (List Entry) :=
  if page.loaded then ⟨.ok page.entries, self⟩
  else
    let r := ReadPage E self page
    match r.result with
    | .error m => ⟨.error m, r.state.2⟩
    | .ok entries =>
      let stored := r.state.2.hierarchy_.map
        (fun h => h.store { r.state.1 with entries := entries })
      let registered := stored.map
        (fun h => (entries.filter isPage).foldl Hierarchy.register h)
      ⟨.ok entries, { r.state.2 with hierarchy_ := registered }⟩

/-- Modelled from the spec: the enumeration of the entries of a page, in entry-array
order: an entry that denotes a sub-page is expanded by `recurse` on the page
registered for it, a leaf point-entry with non-zero point count is appended, a leaf
with zero point count is passed over. -/
def expandEntries (isPage : Entry → Bool)
    (recurse : PartsReader → PageInternal → List Node → Option (Res PartsReader (List Node))) :
    List Entry → PartsReader → List Node → Option (Res PartsReader (List Node))
  | [], self, out => some ⟨.ok out, self⟩
  | e :: es, self, out =>
    if isPage e then
      match recurse self ((seenPage self e.key).getD (pageOfEntry e)) out with
      | none => none
      | some r =>
        match r.result with
        | .error m => some ⟨.error m, r.state⟩
        | .ok out' => expandEntries isPage recurse es r.state out'
    else if e.point_count ≠ 0 then
      expandEntries isPage recurse es self (out ++ [Node.ofEntry e])
    else expandEntries isPage recurse es self out

/-- Modelled from the spec: `LoadPageHierarchy` is defined outside `src/`; by the spec
(`children_of`, step 4) it loads the page if it is not loaded and enumerates every
entry reachable from it, depth first. The first argument bounds the depth of the
recursion into sub-pages; `none` when the bound is reached. -/
def specLoadPageHierarchy (E : Ext) (isPage : Entry → Bool) :
    Nat → PartsReader → PageInternal → List Node → Option (Res PartsReader (List Node))
  | 0, _, _, _ => none
  | fuel + 1, self, page, out =>
    let loaded := loadPageCached E isPage self page
    match loaded.result with
    | .error m => some ⟨.error m, loaded.state⟩
    | .ok entries =>
      expandEntries isPage (specLoadPageHierarchy E isPage fuel) entries loaded.state out

/-- Modelled from the spec: the deepest page discovered so far whose key is the key asked
for or an ancestor of it. -/
def deepestAncestorPage (self : PartsReader) (key : VoxelKey) : Option PageInternal :=
  match self.hierarchy_ with
  | none => none
  | some h =>
    (h.seen_pages_.filter (fun p => p.1.isAncestorOrSelf key)).foldl
      (fun best p =>
        match best with
        | none => some p.2
        | some b => if b.key.d < p.1.d then some p.2 else some b)
      none

/-- Modelled from the spec: `FindNode` is defined outside `src/`; by the spec (`resolve`)
it descends from the deepest discovered ancestor page of the key, loading the pages
on the path that are not loaded yet, until a leaf point-entry with exactly this key
is found, or no page is left to load and the result is "not found". The first
argument bounds the number of pages loaded; `none` when the bound is reached. -/
def specFindNode (E : Ext) (isPage : Entry → Bool) :
    Nat → PartsReader → VoxelKey → Option (Res PartsReader Node)
  | 0, _, _ => none
  | fuel + 1, self, key =>
    match deepestAncestorPage self key with
    | none => some ⟨.ok Node.notFound, self⟩
    | some page =>
      if page.loaded then
        match page.entries.find? (fun e => decide (e.key = key) && !isPage e) with
        | some e => some ⟨.ok (Node.ofEntry e), self⟩
        | none => some ⟨.ok Node.notFound, self⟩
      else
        let loaded := loadPageCached E isPage self page
        match loaded.result with
        | .error m => some ⟨.error m, loaded.state⟩
        | .ok _ => specFindNode E isPage fuel loaded.state key

/-- The spec's hierarchy walks as an instance of `Base`, for a test `isPage` telling the
entries that denote a sub-page and a bound `fuel` on both walks: a key is valid when
in range, a node when its entry is, a page exists at a key when `seen_pages` has one
there. -/
def specBase (E : Ext) (isPage : Entry → Bool) (fuel : Nat) : Base :=
  { Key_IsValid := VoxelKey.inRange
    Node_IsValid := fun n => E.Entry_IsValid n.toEntry
    FindNode := specFindNode E isPage fuel
    PageExists := fun self key => (seenPage self key).isSome
    seen_pages_at := fun self key => (seenPage self key).getD (pageOfEntry ⟨key, 0, 0, -1⟩)
    LoadPageHierarchy := specLoadPageHierarchy E isPage fuel }

/-- The sub-page convention of COPC: point count -1. -/
def isSubPage (e : Entry) : Bool := decide (e.point_count = -1)

/-! ### A concrete hierarchy -/

/-- The info record of the concrete hierarchy: root page at absolute offset 5060, 96
bytes. -/
def treeInfoRecord : RecordBytes :=
  (vlrHeaderBytes "copc" 1 160,
    List.replicate 40 0 ++ leBytes 8 5060 ++ leBytes 8 96 ++ List.replicate 104 0)

/-- The hierarchy of the concrete file as an extended record: a root page of three
entries (the sub-page at key `(1,0,0,0)`, a leaf at `(1,1,0,0)` with 5 points, a
leaf at `(1,0,1,0)` with 0 points) followed by the sub-page, of one entry (a leaf at
`(1,0,0,0)` with 7 points). -/
def treeRecord : RecordBytes :=
  (evlrHeaderBytes "copc" 1000 128,
    entryBytes 1 0 0 0 5156 32 (2 ^ 32 - 1) ++ entryBytes 1 1 0 0 2000 65 5 ++
      entryBytes 1 0 1 0 0 0 0 ++ entryBytes 1 0 0 0 3000 80 7)

/-- Reader state after `ReadHeader` and `InitCopcConfig` on the concrete hierarchy. -/
def readerWithTree : PartsReader :=
  (InitCopcConfig lazperf (readerAfterHeader 1 1) (concatRecords [treeInfoRecord])
    (concatRecords [treeRecord])).state

/-- Every node of the list is a leaf point-entry (made of an entry that does not denote a
sub-page) with a non-zero point count. -/
def OnlyNonEmptyLeaves (isPage : Entry → Bool) (out : List Node) : Prop :=
  ∀ n ∈ out, n.point_count ≠ 0 ∧ ∃ e, isPage e = false ∧ n = Node.ofEntry e

set_option maxRecDepth 100000

/-! ## Lemmas shared by the theorems -/

theorem headerLengthError_eq :
    headerLengthError = "PartsReader::ReadHeader: header_with_copc_vlr must be 535 bytes." := by
  decide

theorem ReadHeader_of_length_ne (E : Ext) (self : PartsReader) (input : List Byte)
    (h : input.length ≠ 535) : ReadHeader E self input = ⟨.error headerLengthError, self⟩ := by
  unfold ReadHeader
  simp [LAS_HEADER14_LENGTH, COPC_VLR_LENGTH, h]

theorem ReadHeader_of_length_eq (E : Ext) (self : PartsReader) (input : List Byte)
    (h : input.length = 535) :
    ReadHeader E self input =
      ⟨.ok (), { self with
        lazperf_header_ :=
          { (header14.create E (IStream.ofString input)).1 with
            point_format_id :=
              (header14.create E (IStream.ofString input)).1.point_format_id &&& 0x3f },
        point_offset := (header14.create E (IStream.ofString input)).1.point_offset,
        evlr_offset := (header14.create E (IStream.ofString input)).1.evlr_offset }⟩ := by
  unfold ReadHeader
  simp [LAS_HEADER14_LENGTH, COPC_VLR_LENGTH, h]

theorem ReadHeader_ok_length (E : Ext) (self : PartsReader) (input : List Byte)
    (h : (ReadHeader E self input).result = .ok ()) : input.length = 535 := by
  by_contra hne
  rw [ReadHeader_of_length_ne E self input hne] at h
  exact absurd h (by simp)


theorem read_ofString_fst (input : List Byte) (n : Nat) :
    ((IStream.ofString input).read n).1 = input.take n := by
  unfold IStream.read IStream.ofString IStream.good
  simp only [Bool.not_false, Bool.and_self, if_true, List.drop_zero]
  split <;> rfl

theorem byteAt_take (input : List Byte) (h : input.length = 535) :
    bytesAt (zeroPad 375 (input.take 375)) 104 1 = [input.getD 104 0] := by
  have h1 : (input.take 375).length = 375 := by simp [h]
  unfold bytesAt zeroPad
  rw [h1]
  simp only [Nat.sub_self, List.replicate_zero, List.append_nil, List.take_take]
  have h2 : 104 < input.length := by omega
  rw [List.getD_eq_getElem _ _ h2]
  apply List.ext_getElem
  · simp [h]
  · intro i hi1 hi2
    simp at hi2
    subst hi2
    simp [List.getElem_take, List.getElem_drop]

theorem las14_point_format_byte (E : Ext) (hp : E.header14_parse = las14_header_parse)
    (hs : E.header14_Size = 375) (input : List Byte) (h : input.length = 535) :
    (header14.create E (IStream.ofString input)).1.point_format_id
      = (input.getD 104 0).val := by
  unfold header14.create
  simp only [read_ofString_fst, hp, hs]
  unfold las14_header_parse
  simp only [uintAt, byteAt_take input h, leNat]
  omega

theorem toU64_natCast (n : Nat) (h : n < 2 ^ 64) : toU64 (n : Int) = n := by
  unfold toU64
  omega

theorem toStreamOff_small (n : Nat) (h : n < 2 ^ 63) : toStreamOff n = (n : Int) := by
  unfold toStreamOff
  have h1 : n % 2 ^ 64 = n := Nat.mod_eq_of_lt (by omega)
  rw [h1, if_pos h]

/-! ### The catalog as a map -/

theorem mapInsert_append (k : Nat) (h : VlrHeader) (c : Catalog)
    (hc : ∀ e ∈ c, e.1 < k) : mapInsert k h c = c ++ [(k, h)] := by
  induction c with
  | nil => rfl
  | cons e rest ih =>
    obtain ⟨k', h'⟩ := e
    have hk : k' < k := hc (k', h') (List.mem_cons_self _ _)
    have hrest : ∀ e ∈ rest, e.1 < k := fun e he => hc e (List.mem_cons_of_mem _ he)
    simp only [mapInsert, List.cons_append]
    rw [if_neg (by omega), if_neg (by omega), ih hrest]

theorem FetchVlr_zero_of_no_match (vlrs : Catalog) (user_id : List Byte) (record_id : Nat)
    (h : ∀ e ∈ vlrs, ¬ (e.2.user_id = user_id ∧ e.2.record_id = record_id)) :
    FetchVlr vlrs user_id record_id = 0 := by
  induction vlrs with
  | nil => rfl
  | cons e rest ih =>
    obtain ⟨k, v⟩ := e
    unfold FetchVlr
    rw [if_neg (h (k, v) (List.mem_cons_self _ _))]
    exact ih (fun e he => h e (List.mem_cons_of_mem _ he))

theorem FetchVlr_mem (vlrs : Catalog) (user_id : List Byte) (record_id : Nat)
    (h : FetchVlr vlrs user_id record_id ≠ 0) :
    ∃ v, (FetchVlr vlrs user_id record_id, v) ∈ vlrs ∧
      v.user_id = user_id ∧ v.record_id = record_id := by
  induction vlrs with
  | nil => exact absurd rfl h
  | cons e rest ih =>
    obtain ⟨k, v⟩ := e
    unfold FetchVlr at h ⊢
    by_cases hm : v.user_id = user_id ∧ v.record_id = record_id
    · rw [if_pos hm]
      exact ⟨v, List.mem_cons_self _ _, hm⟩
    · rw [if_neg hm] at h ⊢
      obtain ⟨w, hw, hid⟩ := ih h
      exact ⟨w, List.mem_cons_of_mem _ hw, hid⟩

theorem mapFind_isSome_of_mem (c : Catalog) (k : Nat) (v : VlrHeader) (h : (k, v) ∈ c) :
    ∃ w, mapFind k c = some w := by
  induction c with
  | nil => cases h
  | cons e rest ih =>
    obtain ⟨k', v'⟩ := e
    unfold mapFind
    by_cases hk : k = k'
    · rw [if_pos hk]; exact ⟨v', rfl⟩
    · rw [if_neg hk]
      rcases List.mem_cons.mp h with he | he
      · exact absurd (congrArg Prod.fst he) hk
      · exact ih he

theorem mapIndex_snd_of_mem (c : Catalog) (k : Nat) (v : VlrHeader) (h : (k, v) ∈ c) :
    (mapIndex c k).2 = c := by
  obtain ⟨w, hw⟩ := mapFind_isSome_of_mem c k v h
  unfold mapIndex
  rw [hw]

theorem ReadWktVlr_vlrs (E : Ext) (vlrs : Catalog) (s : IStream) :
    (ReadWktVlr E vlrs s).vlrs = vlrs := by
  unfold ReadWktVlr
  by_cases h : FetchVlr vlrs (ascii "LASF_Projection") 2112 = 0
  · simp [h]
  · obtain ⟨v, hv, _⟩ := FetchVlr_mem vlrs _ _ h
    simp [h, mapIndex_snd_of_mem vlrs _ v hv]

theorem ReadExtraBytesVlr_vlrs (E : Ext) (vlrs : Catalog) (s : IStream) :
    (ReadExtraBytesVlr E vlrs s).vlrs = vlrs := by
  unfold ReadExtraBytesVlr
  by_cases h : FetchVlr vlrs (ascii "LASF_Spec") 4 = 0
  · simp [h]
  · obtain ⟨v, hv, _⟩ := FetchVlr_mem vlrs _ _ h
    simp [h, mapIndex_snd_of_mem vlrs _ v hv]

theorem InitCopcConfig_vlrs (E : Ext) (self : PartsReader) (vlr_data evlr_data : List Byte) :
    (InitCopcConfig E self vlr_data evlr_data).state.vlrs_ =
      (evlrLoop E self.lazperf_header_.evlr_count (IStream.ofString evlr_data)
        (vlrLoop E self.lazperf_header_.vlr_count
          ((IStream.ofString vlr_data).seekgPos 0) []).2).2 := by
  unfold InitCopcConfig
  simp only [ReadWktVlr_vlrs, ReadExtraBytesVlr_vlrs]
  split
  · rfl
  · split
    · rfl
    · split <;> rfl

theorem standardHeaders_length (E : Ext) (recs : List RecordBytes) :
    (standardHeaders E recs).length = recs.length := by
  simp [standardHeaders]

theorem recordOffsets_length (start : Nat) (recs : List RecordBytes) :
    (recordOffsets start recs).length = recs.length := by
  induction recs generalizing start with
  | nil => rfl
  | cons r rs ih => simp [recordOffsets, ih]

theorem read_exact (data : List Byte) (pre hdr rest : List Byte) (n : Nat)
    (hd : data = pre ++ (hdr ++ rest)) (hn : hdr.length = n) :
    (IStream.mk data pre.length false false).read n =
      (hdr, IStream.mk data (pre.length + n) false false) := by
  subst hd
  unfold IStream.read IStream.good
  simp only [Bool.not_false, Bool.and_self, if_true]
  have h1 : List.take n (List.drop pre.length (pre ++ (hdr ++ rest))) = hdr := by
    rw [List.drop_left, ← hn, List.take_left]
  rw [h1, if_neg (by omega)]

theorem vlrLoop_concat (E : Ext) (hS : 0 < E.vlr_header_Size) (recs : List RecordBytes) :
    ∀ (pre : List Byte) (c : Catalog),
      (∀ r ∈ recs, StandardRecord E r) →
      (pre ++ concatRecords recs).length < 2 ^ 63 →
      (∀ e ∈ c, e.1 < pre.length) →
      (vlrLoop E recs.length ⟨pre ++ concatRecords recs, pre.length, false, false⟩ c).2 =
        c ++ (recordOffsets pre.length recs).zip (standardHeaders E recs) := by
  induction recs with
  | nil => intro pre c _ _ _; simp [vlrLoop, recordOffsets, standardHeaders]
  | cons r rs ih =>
    intro pre c hrec hlen hc
    obtain ⟨hsz, hdl, hd16⟩ := hrec r (List.mem_cons_self _ _)
    have hlen2 : pre.length + r.1.length + r.2.length + (concatRecords rs).length < 2 ^ 63 := by
      simpa [concatRecords, Nat.add_assoc] using hlen
    have hread := read_exact (pre ++ concatRecords (r :: rs)) pre r.1 (r.2 ++ concatRecords rs)
      E.vlr_header_Size (by simp [concatRecords]) hsz
    simp only [List.length_cons, vlrLoop, IStream.tellg, IStream.good, Bool.not_false,
      Bool.and_self, if_true, vlr_header.create, hread]
    rw [toU64_natCast pre.length (by omega)]
    have hoff : toStreamOff (VlrHeader.ofVlr (E.vlr_header_parse r.1)).data_length
        = (r.2.length : Int) := by
      show toStreamOff (E.vlr_header_parse r.1).data_length = _
      rw [hdl]
      exact toStreamOff_small _ (by omega)
    rw [hoff, mapInsert_append _ _ c hc]
    have hseek : (IStream.mk (pre ++ concatRecords (r :: rs)) (pre.length + E.vlr_header_Size)
        false false).seekgCur (r.2.length : Int) =
        IStream.mk ((pre ++ r.1 ++ r.2) ++ concatRecords rs) (pre ++ r.1 ++ r.2).length
          false false := by
      unfold IStream.seekgCur
      simp only [Bool.false_eq_true, if_false]
      rw [if_pos]
      · simp only [concatRecords, List.append_assoc, List.length_append, IStream.mk.injEq,
          and_true, true_and]
        omega
      · simp only [concatRecords, List.length_append]
        omega
    rw [hseek, ih (pre ++ r.1 ++ r.2) (c ++ [(pre.length, VlrHeader.ofVlr (E.vlr_header_parse r.1))])
      (fun r' hr' => hrec r' (List.mem_cons_of_mem _ hr'))
      (by simpa [concatRecords, Nat.add_assoc] using hlen)]
    · simp [recordOffsets, standardHeaders, Nat.add_assoc]
    · intro e he
      rcases List.mem_append.mp he with h1 | h1
      · have := hc e h1
        simp only [List.length_append]
        omega
      · simp only [List.mem_singleton] at h1
        subst h1
        simp only [List.length_append]
        omega

theorem mapFind_of_mem_sorted (c : Catalog) (k : Nat) (v : VlrHeader)
    (hs : SortedKeys c) (h : (k, v) ∈ c) : mapFind k c = some v := by
  induction c with
  | nil => cases h
  | cons e rest ih =>
    obtain ⟨k', v'⟩ := e
    unfold SortedKeys at hs
    rw [List.pairwise_cons] at hs
    unfold mapFind
    rcases List.mem_cons.mp h with he | he
    · cases he
      rw [if_pos rfl]
    · have hlt : k' < k := hs.1 (k, v) he
      rw [if_neg (by omega)]
      exact ih hs.2 he

theorem locatedHeader_mem (vlrs : Catalog) (user_id : List Byte) (record_id : Nat)
    (hs : SortedKeys vlrs) (h : FetchVlr vlrs user_id record_id ≠ 0) :
    (FetchVlr vlrs user_id record_id, locatedHeader vlrs user_id record_id) ∈ vlrs ∧
    (locatedHeader vlrs user_id record_id).user_id = user_id ∧
    (locatedHeader vlrs user_id record_id).record_id = record_id := by
  obtain ⟨v, hv, hid⟩ := FetchVlr_mem vlrs user_id record_id h
  have hf := mapFind_of_mem_sorted vlrs _ v hs hv
  have hl : locatedHeader vlrs user_id record_id = v := by
    unfold locatedHeader mapIndex
    rw [hf]
  rw [hl]
  exact ⟨hv, hid⟩

/-! ### Reading a run of entries -/

theorem read_streamAt (data : List Byte) (s : IStream) (q n : Nat) (h : StreamAt data s q) :
    (s.read n).1 = bytesAt data q n ∧ StreamAt data (s.read n).2 (q + n) := by
  obtain ⟨hd, hcase⟩ := h
  rcases hcase with ⟨hf, he, hp⟩ | ⟨hf, hq⟩
  · unfold IStream.read IStream.good bytesAt
    simp only [hf, he, Bool.not_false, Bool.and_self, if_true, hd, hp]
    by_cases hshort : (List.take n (List.drop q data)).length < n
    · rw [if_pos hshort]
      refine ⟨rfl, rfl, Or.inr ⟨rfl, ?_⟩⟩
      simp only [List.length_take, List.length_drop] at hshort
      omega
    · rw [if_neg hshort]
      exact ⟨rfl, rfl, Or.inl ⟨rfl, rfl, rfl⟩⟩
  · unfold IStream.read IStream.good bytesAt
    simp only [hf, Bool.not_true, Bool.false_and, Bool.false_eq_true, if_false]
    refine ⟨?_, hd, Or.inr ⟨rfl, by omega⟩⟩
    rw [List.drop_eq_nil_of_le hq, List.take_nil]

theorem seekgPos_streamAt (data : List Byte) (p : Nat) (hp : p < 2 ^ 64)
    (hlen : data.length < 2 ^ 63) :
    StreamAt data ((IStream.ofString data).seekgPos (toStreamOff p)) p := by
  unfold IStream.seekgPos IStream.ofString toStreamOff
  have hmod : p % 2 ^ 64 = p := Nat.mod_eq_of_lt hp
  simp only [hmod, Bool.false_eq_true, if_false]
  by_cases h63 : p < 2 ^ 63
  · rw [if_pos h63]
    by_cases hin : (0 : Int) ≤ (p : Int) ∧ (p : Int) ≤ (data.length : Int)
    · rw [if_pos hin]
      exact ⟨rfl, Or.inl ⟨rfl, rfl, by simp⟩⟩
    · rw [if_neg hin]
      refine ⟨rfl, Or.inr ⟨rfl, ?_⟩⟩
      omega
  · rw [if_neg h63]
    rw [if_neg (by omega)]
    refine ⟨rfl, Or.inr ⟨rfl, ?_⟩⟩
    omega

theorem entriesAt_length (E : Ext) (data : List Byte) (q k : Nat) :
    (entriesAt E data q k).length = k := by
  induction k generalizing q with
  | zero => rfl
  | succ k ih => simp [entriesAt, ih]

theorem entriesAt_getElem? (E : Ext) (data : List Byte) (q k i : Nat) (hi : i < k) :
    (entriesAt E data q k)[i]? =
      some (E.Entry_parse (bytesAt data (q + i * E.ENTRY_SIZE) E.ENTRY_SIZE)) := by
  induction k generalizing q i with
  | zero => omega
  | succ k ih =>
    cases i with
    | zero => simp [entriesAt]
    | succ i =>
      simp only [entriesAt, List.getElem?_cons_succ]
      rw [ih (q + E.ENTRY_SIZE) i (by omega)]
      congr 3
      rw [Nat.add_mul]
      omega

theorem readEntries_ok_iff (E : Ext) (data : List Byte) (k : Nat) :
    ∀ (s : IStream) (q : Nat) (out : List Entry), StreamAt data s q →
      ((∀ e ∈ entriesAt E data q k, E.Entry_IsValid e = true) →
        readEntries E k s out = .ok (out ++ entriesAt E data q k)) ∧
      ((∃ e ∈ entriesAt E data q k, E.Entry_IsValid e = false) →
        ∃ e ∈ entriesAt E data q k, E.Entry_IsValid e = false ∧
          readEntries E k s out = .error e) := by
  induction k with
  | zero =>
    intro s q out _
    refine ⟨fun _ => by simp [readEntries, entriesAt], fun h => ?_⟩
    obtain ⟨e, he, _⟩ := h
    simp [entriesAt] at he
  | succ k ih =>
    intro s q out hs
    obtain ⟨hread, hnext⟩ := read_streamAt data s q E.ENTRY_SIZE hs
    have hstep := ih (s.read E.ENTRY_SIZE).2 (q + E.ENTRY_SIZE)
      (out ++ [E.Entry_parse (bytesAt data q E.ENTRY_SIZE)]) hnext
    constructor
    · intro hall
      have h0 : E.Entry_IsValid (E.Entry_parse (bytesAt data q E.ENTRY_SIZE)) = true :=
        hall _ (by simp [entriesAt])
      have hrest : ∀ e ∈ entriesAt E data (q + E.ENTRY_SIZE) k, E.Entry_IsValid e = true :=
        fun e he => hall e (by simp [entriesAt, he])
      unfold readEntries
      simp only [Entry.Unpack, hread, h0, Bool.true_eq_false, if_false]
      rw [hstep.1 hrest]
      simp [entriesAt]
    · intro _
      by_cases h0 : E.Entry_IsValid (E.Entry_parse (bytesAt data q E.ENTRY_SIZE)) = false
      · refine ⟨_, by simp [entriesAt], h0, ?_⟩
        unfold readEntries
        simp only [Entry.Unpack, hread, h0, if_true]
      · have hex : ∃ e ∈ entriesAt E data (q + E.ENTRY_SIZE) k, E.Entry_IsValid e = false := by
          rename_i hbad
          obtain ⟨e, he, hv⟩ := hbad
          simp only [entriesAt, List.mem_cons] at he
          rcases he with he | he
          · subst he; exact absurd hv h0
          · exact ⟨e, he, hv⟩
        obtain ⟨e, he, hv, hr⟩ := hstep.2 hex
        refine ⟨e, by simp [entriesAt, he], hv, ?_⟩
        unfold readEntries
        simp only [Entry.Unpack, hread, h0, if_false]
        exact hr

theorem tdiv_toNat_eq_floor (a : Int) (n : Nat) :
    (Int.tdiv a (n : Int)).toNat = (a / (n : Int)).toNat := by
  rcases le_or_lt 0 a with ha | ha
  · rw [Int.tdiv_eq_ediv ha (Int.ofNat_nonneg n)]
  · have h1 : Int.tdiv a (n : Int) ≤ 0 := by
      have h2 : 0 ≤ Int.tdiv (-a) (n : Int) := Int.tdiv_nonneg (by omega) (Int.ofNat_nonneg n)
      rw [Int.neg_tdiv] at h2
      omega
    have h3 : a / (n : Int) ≤ 0 := by
      rcases Nat.eq_zero_or_pos n with h0 | h0
      · subst h0; simp
      · exact le_of_lt (Int.ediv_neg' ha (by exact_mod_cast h0))
    rw [Int.toNat_of_nonpos h1, Int.toNat_of_nonpos h3]

theorem readEntries_length (E : Ext) (k : Nat) :
    ∀ (s : IStream) (out l : List Entry), readEntries E k s out = .ok l →
      l.length = out.length + k := by
  induction k with
  | zero =>
    intro s out l h
    simp only [readEntries, Except.ok.injEq] at h
    simp [← h]
  | succ k ih =>
    intro s out l h
    unfold readEntries at h
    by_cases hv : E.Entry_IsValid (Entry.Unpack E s).1 = false
    · simp [hv] at h
    · simp only [hv, if_false] at h
      have := ih _ _ _ h
      simp only [List.length_append, List.length_singleton] at this
      omega

theorem subU64_of_le (a b : Nat) (hab : b ≤ a) (ha : a < 2 ^ 64) : subU64 a b = a - b := by
  unfold subU64
  omega

theorem ReadPage_of_invalid (E : Ext) (self : PartsReader) (page : PageInternal)
    (h : E.Page_IsValid page = false) :
    ReadPage E self page = ⟨.error invalidPageError, (page, self)⟩ := by
  unfold ReadPage
  simp [h]

theorem ReadPage_of_valid (E : Ext) (self : PartsReader) (page : PageInternal)
    (h : E.Page_IsValid page = true) :
    ReadPage E self page =
      match readEntries E (pageEntryCount E page)
          ((IStream.ofString self.evlr_data_).seekgPos (toStreamOff (pageStart self page))) [] with
      | .error e => ⟨.error ("Entry is invalid! " ++ E.Entry_ToString e), (page, self)⟩
      | .ok out => ⟨.ok out, ({ page with loaded := true }, self)⟩ := by
  unfold ReadPage pageEntryCount pageStart
  simp [h]

theorem mem_entriesAt_iff (E : Ext) (self : PartsReader) (page : PageInternal) (k : Nat)
    (e : Entry) :
    e ∈ entriesAt E self.evlr_data_ (pageStart self page) k ↔
      ∃ i, i < k ∧ e = pageEntry E self page i := by
  rw [List.mem_iff_getElem?]
  constructor
  · rintro ⟨i, hi⟩
    have hlt : i < k := by
      have := List.getElem?_eq_some_iff.mp hi
      obtain ⟨hl, _⟩ := this
      rwa [entriesAt_length] at hl
    rw [entriesAt_getElem? E _ _ k i hlt] at hi
    exact ⟨i, hlt, (Option.some.inj hi).symm⟩
  · rintro ⟨i, hlt, rfl⟩
    exact ⟨i, entriesAt_getElem? E _ _ k i hlt⟩

theorem bytesAt_header_field (input : List Byte) (h : input.length = 535) (off n : Nat)
    (hin : off + n ≤ 375) :
    bytesAt (zeroPad 375 (input.take 375)) off n = bytesAt input off n := by
  have h1 : (input.take 375).length = 375 := by simp [h]
  unfold bytesAt zeroPad
  rw [h1]
  simp only [Nat.sub_self, List.replicate_zero, List.append_nil, List.take_take]
  rw [List.drop_take, List.take_take]
  congr 1
  omega

theorem las14_offsets_bytes (E : Ext) (hp : E.header14_parse = las14_header_parse)
    (hs : E.header14_Size = 375) (input : List Byte) (h : input.length = 535) :
    (header14.create E (IStream.ofString input)).1.point_offset = uintAt input 96 4 ∧
    (header14.create E (IStream.ofString input)).1.evlr_offset = uintAt input 235 8 := by
  unfold header14.create
  simp only [read_ofString_fst, hp, hs]
  unfold las14_header_parse
  simp only [uintAt, bytesAt_header_field input h 96 4 (by omega),
    bytesAt_header_field input h 235 8 (by omega), and_self]

theorem InitCopcConfig_header (E : Ext) (self : PartsReader) (vlr_data evlr_data : List Byte) :
    (InitCopcConfig E self vlr_data evlr_data).state.lazperf_header_ = self.lazperf_header_ := by
  unfold InitCopcConfig
  simp only []
  split
  · rfl
  · split
    · rfl
    · split <;> rfl

/-! ### The two loops: what they consume and how much they insert -/

theorem expandEntries_onlyNonEmptyLeaves (isPage : Entry → Bool)
    (recurse : PartsReader → PageInternal → List Node → Option (Res PartsReader (List Node)))
    (hrec : ∀ self page out r out', OnlyNonEmptyLeaves isPage out →
      recurse self page out = some r → r.result = .ok out' → OnlyNonEmptyLeaves isPage out')
    (es : List Entry) :
    ∀ (self : PartsReader) (out : List Node) (r : Res PartsReader (List Node))
      (out' : List Node), OnlyNonEmptyLeaves isPage out →
      expandEntries isPage recurse es self out = some r → r.result = .ok out' →
      OnlyNonEmptyLeaves isPage out' := by
  induction es with
  | nil =>
    intro self out r out' hout h hr
    simp only [expandEntries, Option.some.injEq] at h
    subst h
    cases hr
    exact hout
  | cons e es ih =>
    intro self out r out' hout h hr
    unfold expandEntries at h
    by_cases hp : isPage e = true
    · simp only [hp, if_true] at h
      cases hsub : recurse self ((seenPage self e.key).getD (pageOfEntry e)) out with
      | none => rw [hsub] at h; cases h
      | some r1 =>
        rw [hsub] at h
        cases hres : r1.result with
        | error m =>
          simp only [hres, Option.some.injEq] at h
          subst h
          cases hr
        | ok out1 =>
          simp only [hres] at h
          exact ih r1.state out1 r out' (hrec _ _ _ _ _ hout hsub hres) h hr
    · simp only [hp, Bool.false_eq_true, if_false] at h
      by_cases hz : e.point_count ≠ 0
      · simp only [hz, ne_eq, not_false_eq_true, if_true] at h
        refine ih self (out ++ [Node.ofEntry e]) r out' ?_ h hr
        intro n hn
        rcases List.mem_append.mp hn with hn | hn
        · exact hout n hn
        · simp only [List.mem_singleton] at hn
          subst hn
          exact ⟨hz, e, by simpa using hp, rfl⟩
      · simp only [hz, if_false] at h
        exact ih self out r out' hout h hr

theorem specLoadPageHierarchy_onlyNonEmptyLeaves (E : Ext) (isPage : Entry → Bool)
    (fuel : Nat) :
    ∀ (self : PartsReader) (page : PageInternal) (out : List Node)
      (r : Res PartsReader (List Node)) (out' : List Node),
      OnlyNonEmptyLeaves isPage out →
      specLoadPageHierarchy E isPage fuel self page out = some r → r.result = .ok out' →
      OnlyNonEmptyLeaves isPage out' := by
  induction fuel with
  | zero =>
    intro self page out r out' _ h _
    simp [specLoadPageHierarchy] at h
  | succ fuel ih =>
    intro self page out r out' hout h hr
    unfold specLoadPageHierarchy at h
    simp only [] at h
    cases hl : (loadPageCached E isPage self page).result with
    | error m =>
      simp only [hl, Option.some.injEq] at h
      subst h
      cases hr
    | ok entries =>
      simp only [hl] at h
      exact expandEntries_onlyNonEmptyLeaves isPage _ ih entries _ out r out' hout h hr


/-! ### Pages stay registered -/

theorem Hierarchy.find_isSome_iff (h : Hierarchy) (key : VoxelKey) :
    (h.find key).isSome = true ↔ ∃ p ∈ h.seen_pages_, p.1 = key := by
  unfold Hierarchy.find
  rw [Option.isSome_map', List.find?_isSome]
  simp

theorem Hierarchy.store_keeps (h : Hierarchy) (page : PageInternal) (key : VoxelKey)
    (hk : (h.find key).isSome = true) : ((h.store page).find key).isSome = true := by
  rw [Hierarchy.find_isSome_iff] at hk ⊢
  obtain ⟨p, hp, hpk⟩ := hk
  unfold Hierarchy.store
  split
  · refine ⟨if p.1 = page.key then (p.1, page) else p, ?_, ?_⟩
    · exact List.mem_map.mpr ⟨p, hp, rfl⟩
    · split <;> exact hpk
  · exact ⟨p, List.mem_append_left _ hp, hpk⟩

theorem Hierarchy.register_keeps (h : Hierarchy) (e : Entry) (key : VoxelKey)
    (hk : (h.find key).isSome = true) : ((h.register e).find key).isSome = true := by
  unfold Hierarchy.register
  split
  · exact hk
  · rw [Hierarchy.find_isSome_iff] at hk ⊢
    obtain ⟨p, hp, hpk⟩ := hk
    exact ⟨p, List.mem_append_left _ hp, hpk⟩

theorem Hierarchy.foldl_register_keeps (es : List Entry) (key : VoxelKey) :
    ∀ h : Hierarchy, (h.find key).isSome = true →
      ((es.foldl Hierarchy.register h).find key).isSome = true := by
  induction es with
  | nil => intro h hk; exact hk
  | cons e es ih =>
    intro h hk
    simp only [List.foldl_cons]
    exact ih _ (Hierarchy.register_keeps h e key hk)

theorem ReadPage_state_snd (E : Ext) (self : PartsReader) (page : PageInternal) :
    (ReadPage E self page).state.2 = self := by
  cases hv : E.Page_IsValid page with
  | false => rw [ReadPage_of_invalid E self page hv]
  | true =>
    rw [ReadPage_of_valid E self page hv]
    split <;> rfl

theorem loadPageCached_keeps (E : Ext) (isPage : Entry → Bool) (self : PartsReader)
    (page : PageInternal) (key : VoxelKey) (hk : (seenPage self key).isSome = true) :
    (seenPage (loadPageCached E isPage self page).state key).isSome = true := by
  unfold loadPageCached
  by_cases hl : page.loaded = true
  · simp only [hl, if_true]
    exact hk
  · simp only [hl, Bool.false_eq_true, if_false]
    cases hr : (ReadPage E self page).result with
    | error m =>
      simp only [ReadPage_state_snd]
      exact hk
    | ok entries =>
      simp only [ReadPage_state_snd]
      unfold seenPage at hk ⊢
      cases hh : self.hierarchy_ with
      | none => rw [hh] at hk; cases hk
      | some h =>
        rw [hh] at hk
        simp only [Option.map_some', Option.some_bind] at hk ⊢
        exact Hierarchy.foldl_register_keeps _ key _ (Hierarchy.store_keeps h _ key hk)

theorem specFindNode_keeps (E : Ext) (isPage : Entry → Bool) (key' : VoxelKey) (fuel : Nat) :
    ∀ (self : PartsReader) (key : VoxelKey) (found : Res PartsReader Node),
      (seenPage self key').isSome = true →
      specFindNode E isPage fuel self key = some found →
      (seenPage found.state key').isSome = true := by
  induction fuel with
  | zero =>
    intro self key found _ h
    simp [specFindNode] at h
  | succ fuel ih =>
    intro self key found hk h
    unfold specFindNode at h
    split at h
    · simp only [Option.some.injEq] at h
      subst h
      exact hk
    · rename_i page _
      by_cases hl : page.loaded = true
      · simp only [hl, if_true] at h
        split at h <;>
          (simp only [Option.some.injEq] at h
           subst h
           exact hk)
      · simp only [hl, Bool.false_eq_true, if_false] at h
        have hkeep := loadPageCached_keeps E isPage self page key' hk
        cases hr : (loadPageCached E isPage self page).result with
        | error m =>
          simp only [hr, Option.some.injEq] at h
          subst h
          exact hkeep
        | ok entries =>
          simp only [hr] at h
          exact ih _ key found hkeep h

/-! ### The streams keep their buffer; the built catalog keeps the key order -/

theorem tellg_data (s : IStream) : s.tellg.2.data = s.data := by
  unfold IStream.tellg
  split <;> rfl

theorem seekgPos_data (s : IStream) (p : Int) : (s.seekgPos p).data = s.data := by
  unfold IStream.seekgPos
  split
  · rfl
  · split <;> rfl

theorem seekgCur_data (s : IStream) (off : Int) : (s.seekgCur off).data = s.data := by
  unfold IStream.seekgCur
  split
  · rfl
  · split <;> rfl

theorem read_data (s : IStream) (n : Nat) : (s.read n).2.data = s.data := by
  unfold IStream.read
  split
  · simp only []
    split <;> rfl
  · rfl

theorem vlrLoop_data (E : Ext) (n : Nat) :
    ∀ (s : IStream) (c : Catalog), (vlrLoop E n s c).1.data = s.data := by
  induction n with
  | zero => intro s c; rfl
  | succ n ih =>
    intro s c
    unfold vlrLoop
    simp only []
    rw [ih, seekgCur_data]
    unfold vlr_header.create
    simp only []
    rw [read_data, tellg_data]

theorem evlrLoop_data (E : Ext) (n : Nat) :
    ∀ (s : IStream) (c : Catalog), (evlrLoop E n s c).1.data = s.data := by
  induction n with
  | zero => intro s c; rfl
  | succ n ih =>
    intro s c
    unfold evlrLoop
    simp only []
    rw [ih, seekgCur_data]
    unfold evlr_header.create
    simp only []
    rw [read_data, tellg_data]

theorem mem_mapInsert (k : Nat) (h : VlrHeader) (c : Catalog) (e : Nat × VlrHeader)
    (he : e ∈ mapInsert k h c) : e = (k, h) ∨ e ∈ c := by
  induction c with
  | nil =>
    simp only [mapInsert, List.mem_singleton] at he
    exact Or.inl he
  | cons x rest ih =>
    obtain ⟨k', h'⟩ := x
    unfold mapInsert at he
    split at he
    · rcases List.mem_cons.mp he with h1 | h1
      · exact Or.inl h1
      · exact Or.inr h1
    · split at he
      · exact Or.inr he
      · rcases List.mem_cons.mp he with h1 | h1
        · exact Or.inr (h1 ▸ List.mem_cons_self _ _)
        · rcases ih h1 with h2 | h2
          · exact Or.inl h2
          · exact Or.inr (List.mem_cons_of_mem _ h2)

theorem mapInsert_sorted (k : Nat) (h : VlrHeader) (c : Catalog) (hs : SortedKeys c) :
    SortedKeys (mapInsert k h c) := by
  induction c with
  | nil => simp [mapInsert, SortedKeys]
  | cons x rest ih =>
    obtain ⟨k', h'⟩ := x
    unfold SortedKeys at hs ih ⊢
    rw [List.pairwise_cons] at hs
    unfold mapInsert
    split
    · rename_i hlt
      rw [List.pairwise_cons]
      refine ⟨fun e he => ?_, List.pairwise_cons.mpr hs⟩
      rcases List.mem_cons.mp he with h1 | h1
      · rw [h1]; exact hlt
      · exact lt_trans hlt (hs.1 e h1)
    · split
      · exact List.pairwise_cons.mpr hs
      · rename_i hnlt hne
        rw [List.pairwise_cons]
        refine ⟨fun e he => ?_, ih hs.2⟩
        rcases mem_mapInsert k h rest e he with h1 | h1
        · rw [h1]
          show k' < k
          omega
        · exact hs.1 e h1

theorem vlrLoop_sorted (E : Ext) (n : Nat) :
    ∀ (s : IStream) (c : Catalog), SortedKeys c → SortedKeys (vlrLoop E n s c).2 := by
  induction n with
  | zero => intro s c hc; exact hc
  | succ n ih =>
    intro s c hc
    unfold vlrLoop
    exact ih _ _ (mapInsert_sorted _ _ c hc)

theorem evlrLoop_sorted (E : Ext) (n : Nat) :
    ∀ (s : IStream) (c : Catalog), SortedKeys c → SortedKeys (evlrLoop E n s c).2 := by
  induction n with
  | zero => intro s c hc; exact hc
  | succ n ih =>
    intro s c hc
    unfold evlrLoop
    exact ih _ _ (mapInsert_sorted _ _ c hc)

theorem InitCopcConfig_sorted (E : Ext) (self : PartsReader) (vlr_data evlr_data : List Byte) :
    SortedKeys (InitCopcConfig E self vlr_data evlr_data).state.vlrs_ := by
  rw [InitCopcConfig_vlrs]
  exact evlrLoop_sorted E _ _ _ (vlrLoop_sorted E _ _ _ (by simp [SortedKeys]))

theorem lazperf_copc_info_data (s : IStream) : (lazperf.copc_info_create s).2.data = s.data := by
  show (s.read 160).2.data = s.data
  exact read_data s 160

/-- The two body reads as `InitCopcConfig` makes them: on the catalog it has built, the
text from the stream on the extended buffer and the schema from the stream on the
standard buffer, and what the call returns and stores from them. -/
theorem InitCopcConfig_body_reads (E : Ext) (self : PartsReader)
    (vlr_data evlr_data : List Byte) (es vs : IStream)
    (hes : es = (evlrLoop E self.lazperf_header_.evlr_count (IStream.ofString evlr_data)
      (vlrLoop E self.lazperf_header_.vlr_count
        ((IStream.ofString vlr_data).seekgPos 0) []).2).1.seekgPos 0)
    (hvs : vs = (E.copc_info_create
      ((vlrLoop E self.lazperf_header_.vlr_count
        ((IStream.ofString vlr_data).seekgPos 0) []).1.seekgPos
          (E.COPC_OFFSET - (LAS_HEADER14_LENGTH : Int)))).2.seekgPos 0) :
    (∀ m, (ReadWktVlr E (InitCopcConfig E self vlr_data evlr_data).state.vlrs_ es).result
        = .error m → (InitCopcConfig E self vlr_data evlr_data).result = .error m) ∧
    (∀ wkt m, (ReadWktVlr E (InitCopcConfig E self vlr_data evlr_data).state.vlrs_ es).result
        = .ok wkt →
      (ReadExtraBytesVlr E (InitCopcConfig E self vlr_data evlr_data).state.vlrs_ vs).result
        = .error m → (InitCopcConfig E self vlr_data evlr_data).result = .error m) ∧
    ((InitCopcConfig E self vlr_data evlr_data).result = .ok () →
      ∃ wkt eb,
        (ReadWktVlr E (InitCopcConfig E self vlr_data evlr_data).state.vlrs_ es).result
          = .ok wkt ∧
        (ReadExtraBytesVlr E (InitCopcConfig E self vlr_data evlr_data).state.vlrs_ vs).result
          = .ok eb ∧
        (InitCopcConfig E self vlr_data evlr_data).state.config_.map (fun c => c.wkt)
          = some wkt.wkt ∧
        (InitCopcConfig E self vlr_data evlr_data).state.config_.map (fun c => c.extra_bytes)
          = some eb) := by
  rw [InitCopcConfig_vlrs]
  subst hes hvs
  unfold InitCopcConfig
  simp only [ReadWktVlr_vlrs, ReadExtraBytesVlr_vlrs]
  cases hw : (ReadWktVlr E
      (evlrLoop E self.lazperf_header_.evlr_count (IStream.ofString evlr_data)
        (vlrLoop E self.lazperf_header_.vlr_count
          ((IStream.ofString vlr_data).seekgPos 0) []).2).2
      ((evlrLoop E self.lazperf_header_.evlr_count (IStream.ofString evlr_data)
        (vlrLoop E self.lazperf_header_.vlr_count
          ((IStream.ofString vlr_data).seekgPos 0) []).2).1.seekgPos 0)).result with
  | error m0 =>
    refine ⟨fun m hm => ?_, fun wkt m hm => ?_, fun hok => ?_⟩
    · cases hm; rfl
    · cases hm
    · cases hok
  | ok wkt0 =>
    simp only []
    cases hb : (ReadExtraBytesVlr E
        (evlrLoop E self.lazperf_header_.evlr_count (IStream.ofString evlr_data)
          (vlrLoop E self.lazperf_header_.vlr_count
            ((IStream.ofString vlr_data).seekgPos 0) []).2).2
        ((E.copc_info_create
          ((vlrLoop E self.lazperf_header_.vlr_count
            ((IStream.ofString vlr_data).seekgPos 0) []).1.seekgPos
              (E.COPC_OFFSET - (LAS_HEADER14_LENGTH : Int)))).2.seekgPos 0)).result with
    | error m0 =>
      refine ⟨fun m hm => ?_, fun wkt m _ hm => ?_, fun hok => ?_⟩
      · cases hm
      · cases hm; rfl
      · cases hok
    | ok eb0 =>
      simp only []
      refine ⟨fun m hm => ?_, fun wkt m _ hm => ?_, fun hok => ?_⟩
      · cases hm
      · cases hm
      · split at hok
        · cases hok
        · exact ⟨wkt0, eb0, rfl, rfl, by simp_all, by simp_all⟩

theorem body_readers_at (E : Ext) (vlrs : Catalog) (s : IStream)
    (hs : SortedKeys vlrs) :
    (FetchVlr vlrs (ascii "LASF_Projection") 2112 ≠ 0 →
      ReadWktVlr E vlrs s =
        ⟨(E.WktVlr_create
            (s.seekgPos (toStreamOff
              (addU64 (FetchVlr vlrs (ascii "LASF_Projection") 2112) E.evlr_header_Size)))
            (locatedHeader vlrs (ascii "LASF_Projection") 2112).data_length).1,
         (E.WktVlr_create
            (s.seekgPos (toStreamOff
              (addU64 (FetchVlr vlrs (ascii "LASF_Projection") 2112) E.evlr_header_Size)))
            (locatedHeader vlrs (ascii "LASF_Projection") 2112).data_length).2,
         vlrs⟩ ∧
      (FetchVlr vlrs (ascii "LASF_Projection") 2112,
        locatedHeader vlrs (ascii "LASF_Projection") 2112) ∈ vlrs ∧
      (locatedHeader vlrs (ascii "LASF_Projection") 2112).user_id = ascii "LASF_Projection" ∧
      (locatedHeader vlrs (ascii "LASF_Projection") 2112).record_id = 2112 ∧
      ((∀ e ∈ vlrs, e.2.user_id = ascii "LASF_Projection" → e.2.record_id = 2112 →
          e.2.evlr_flag = true) → WktReadMatchesVariant vlrs)) ∧
    (FetchVlr vlrs (ascii "LASF_Spec") 4 ≠ 0 →
      ReadExtraBytesVlr E vlrs s =
        ⟨(E.EbVlr_create
            (s.seekgPos (toStreamOff
              (addU64 (FetchVlr vlrs (ascii "LASF_Spec") 4) E.vlr_header_Size)))
            (locatedHeader vlrs (ascii "LASF_Spec") 4).data_length).1,
         (E.EbVlr_create
            (s.seekgPos (toStreamOff
              (addU64 (FetchVlr vlrs (ascii "LASF_Spec") 4) E.vlr_header_Size)))
            (locatedHeader vlrs (ascii "LASF_Spec") 4).data_length).2,
         vlrs⟩ ∧
      (FetchVlr vlrs (ascii "LASF_Spec") 4, locatedHeader vlrs (ascii "LASF_Spec") 4) ∈ vlrs ∧
      (locatedHeader vlrs (ascii "LASF_Spec") 4).user_id = ascii "LASF_Spec" ∧
      (locatedHeader vlrs (ascii "LASF_Spec") 4).record_id = 4 ∧
      ((∀ e ∈ vlrs, e.2.user_id = ascii "LASF_Spec" → e.2.record_id = 4 →
          e.2.evlr_flag = false) → EbReadMatchesVariant vlrs)) := by
  constructor
  · intro h
    obtain ⟨hm, hu, hr⟩ := locatedHeader_mem vlrs _ _ hs h
    refine ⟨?_, hm, hu, hr, fun hall _ => hall _ hm hu hr⟩
    have hv := ReadWktVlr_vlrs E vlrs s
    unfold ReadWktVlr at hv ⊢
    simp only [h, ne_eq, not_false_eq_true, if_true] at hv ⊢
    simp only [locatedHeader, hv]
  · intro h
    obtain ⟨hm, hu, hr⟩ := locatedHeader_mem vlrs _ _ hs h
    refine ⟨?_, hm, hu, hr, fun hall _ => hall _ hm hu hr⟩
    have hv := ReadExtraBytesVlr_vlrs E vlrs s
    unfold ReadExtraBytesVlr at hv ⊢
    simp only [h, ne_eq, not_false_eq_true, if_true] at hv ⊢
    simp only [locatedHeader, hv]

/-! ## The header (`ReadHeader`) -/

/-- C1: an input whose length is not 535 (375 + 160) bytes makes `ReadHeader` fail with
the length error and decodes nothing: `point_offset`, `evlr_offset`, the stored
decoded header and the whole reader are after the call what they were before it.
An input of exactly 535 bytes raises no error. -/
theorem ReadHeader_length_precondition (E : Ext) (self : PartsReader) (input : List Byte) :
    (input.length ≠ LAS_HEADER14_LENGTH + COPC_VLR_LENGTH →
      (ReadHeader E self input).result = .error headerLengthError ∧
      (ReadHeader E self input).state.point_offset = self.point_offset ∧
      (ReadHeader E self input).state.evlr_offset = self.evlr_offset ∧
      (ReadHeader E self input).state.lazperf_header_ = self.lazperf_header_ ∧
      (ReadHeader E self input).state = self) ∧
    (input.length = LAS_HEADER14_LENGTH + COPC_VLR_LENGTH →
      (ReadHeader E self input).result = .ok ()) ∧
    LAS_HEADER14_LENGTH + COPC_VLR_LENGTH = 535 := by
  refine ⟨fun h => ?_, fun h => ?_, rfl⟩
  · rw [ReadHeader_of_length_ne E self input h]
    exact ⟨rfl, rfl, rfl, rfl, rfl⟩
  · rw [ReadHeader_of_length_eq E self input h]

/-- Witness of C1: an empty input is rejected and leaves the reader as it was, an input
of 535 bytes is accepted. -/
theorem ReadHeader_length_precondition_witness :
    ((ReadHeader lazperf PartsReader.default []).result = .error headerLengthError ∧
      (ReadHeader lazperf PartsReader.default []).state = PartsReader.default) ∧
    (ReadHeader lazperf PartsReader.default (headerBytes 6 1000 1 5000 1)).result = .ok () :=
  ⟨⟨((ReadHeader_length_precondition lazperf PartsReader.default []).1 (by decide)).1,
    ((ReadHeader_length_precondition lazperf PartsReader.default []).1 (by decide)).2.2.2.2⟩,
   (ReadHeader_length_precondition lazperf PartsReader.default
      (headerBytes 6 1000 1 5000 1)).2.1 (by decide)⟩

/-- C2: after an accepted `ReadHeader` the stored point format is the decoded
point-format identifier AND 0x3F, hence below 64; a decoded 0xC2 is stored as 2;
and with the LAS 1.4 layout the decoded identifier is byte 104 of the input, so
the stored value is that byte AND 0x3F. -/
theorem ReadHeader_point_format_mask (E : Ext) (self : PartsReader) (input : List Byte)
    (hok : (ReadHeader E self input).result = .ok ()) :
    (ReadHeader E self input).state.lazperf_header_.point_format_id =
      (header14.create E (IStream.ofString input)).1.point_format_id &&& 0x3f ∧
    (ReadHeader E self input).state.lazperf_header_.point_format_id < 64 ∧
    ((header14.create E (IStream.ofString input)).1.point_format_id = 0xC2 →
      (ReadHeader E self input).state.lazperf_header_.point_format_id = 2) ∧
    (E.header14_parse = las14_header_parse → E.header14_Size = 375 →
      (ReadHeader E self input).state.lazperf_header_.point_format_id =
        (input.getD 104 0).val &&& 0x3f) := by
  have hlen := ReadHeader_ok_length E self input hok
  rw [ReadHeader_of_length_eq E self input hlen]
  refine ⟨rfl, ?_, fun h => ?_, fun hp hs => ?_⟩
  · exact Nat.and_lt_two_pow _ (by decide : 0x3f < 2 ^ 6)
  · show (header14.create E (IStream.ofString input)).1.point_format_id &&& 0x3f = 2
    rw [h]
    decide
  · show (header14.create E (IStream.ofString input)).1.point_format_id &&& 0x3f = _
    rw [las14_point_format_byte E hp hs input hlen]

/-- Witness of C2: a header whose point-format byte is 0xC2 is accepted and decodes to
the logical point format 2. -/
theorem ReadHeader_point_format_mask_witness :
    (ReadHeader lazperf PartsReader.default (headerBytes 0xC2 1000 1 5000 1)).result = .ok () ∧
    (headerBytes 0xC2 1000 1 5000 1).getD 104 0 = 0xC2 ∧
    (ReadHeader lazperf PartsReader.default
      (headerBytes 0xC2 1000 1 5000 1)).state.lazperf_header_.point_format_id = 2 :=
  ⟨by decide, by decide,
   (ReadHeader_point_format_mask lazperf PartsReader.default (headerBytes 0xC2 1000 1 5000 1)
      (by decide)).2.2.1 (by decide)⟩

/-! ## The catalog (`InitCopcConfig`, `FetchVlr`) -/

/-- C3: catalog round trip. For a standard buffer made of N records one after the other
(each a header of `vlr_header::Size` bytes declaring as `data_length` the length of
the body that follows it), with a file header declaring N standard and 0 extended
records, the catalog left by `InitCopcConfig` has exactly N entries, its keys are
the offsets at which the headers were placed, in order, and each key is mapped to
the header placed there. -/
theorem InitCopcConfig_catalog_round_trip (E : Ext) (self : PartsReader)
    (recs : List RecordBytes) (evlr_data : List Byte)
    (hS : 0 < E.vlr_header_Size)
    (hrec : ∀ r ∈ recs, StandardRecord E r)
    (hlen : (concatRecords recs).length < 2 ^ 63)
    (hN : self.lazperf_header_.vlr_count = recs.length)
    (hM : self.lazperf_header_.evlr_count = 0) :
    (InitCopcConfig E self (concatRecords recs) evlr_data).state.vlrs_.length = recs.length ∧
    (InitCopcConfig E self (concatRecords recs) evlr_data).state.vlrs_.map Prod.fst =
      recordOffsets 0 recs ∧
    (InitCopcConfig E self (concatRecords recs) evlr_data).state.vlrs_.map Prod.snd =
      standardHeaders E recs ∧
    (InitCopcConfig E self (concatRecords recs) evlr_data).state.vlrs_ =
      (recordOffsets 0 recs).zip (standardHeaders E recs) := by
  have hcat : (InitCopcConfig E self (concatRecords recs) evlr_data).state.vlrs_ =
      (recordOffsets 0 recs).zip (standardHeaders E recs) := by
    rw [InitCopcConfig_vlrs, hN, hM]
    have hseek : (IStream.ofString (concatRecords recs)).seekgPos 0 =
        IStream.mk (([] : List Byte) ++ concatRecords recs) ([] : List Byte).length false false := by
      simp [IStream.ofString, IStream.seekgPos]
    rw [hseek, vlrLoop_concat E hS recs [] [] hrec (by simpa using hlen) (by simp)]
    simp [evlrLoop]
  have hl : (recordOffsets 0 recs).length = (standardHeaders E recs).length := by
    rw [recordOffsets_length, standardHeaders_length]
  rw [hcat]
  refine ⟨?_, ?_, ?_, rfl⟩
  · simp [recordOffsets_length, standardHeaders_length]
  · rw [← List.unzip_fst, List.unzip_zip hl]
  · rw [← List.unzip_snd, List.unzip_zip hl]

/-- Witness of C3: the info record followed by a schema record; the catalog has the two
headers at offsets 0 and 214. -/
theorem InitCopcConfig_catalog_round_trip_witness :
    (InitCopcConfig lazperf (readerAfterHeader 2 0)
      (concatRecords [copcInfoRecord, schemaRecord]) []).state.vlrs_.map Prod.fst = [0, 214] :=
  (InitCopcConfig_catalog_round_trip lazperf (readerAfterHeader 2 0)
    [copcInfoRecord, schemaRecord] [] (by decide) (by decide) (by decide) (by decide)
    (by decide)).2.1

/-- C4: evaluation at a file with one standard record (the info record) and one extended
record (a coordinate-reference-system text), both well formed. Each record is at
offset 0 of its own buffer; the extended header, inserted second under the key 0
that the standard header already holds, is not stored: the catalog has one header
instead of two, none of them extended, and the text of the configuration is empty,
not `EPSG`. -/
theorem InitCopcConfig_loses_extended_header_at_taken_offset :
    StandardRecord lazperf copcInfoRecord ∧ ExtendedRecord lazperf wktExtendedRecord ∧
    (readerAfterHeader 1 1).lazperf_header_.vlr_count = 1 ∧
    (readerAfterHeader 1 1).lazperf_header_.evlr_count = 1 ∧
    recordOffsets 0 [wktExtendedRecord] = [0] ∧
    (InitCopcConfig lazperf (readerAfterHeader 1 1) (concatRecords [copcInfoRecord])
      (concatRecords [wktExtendedRecord])).state.vlrs_ =
        [(0, VlrHeader.ofVlr (las14_vlr_header_parse copcInfoRecord.1))] ∧
    (∀ e ∈ (InitCopcConfig lazperf (readerAfterHeader 1 1) (concatRecords [copcInfoRecord])
      (concatRecords [wktExtendedRecord])).state.vlrs_, e.2.evlr_flag = false) ∧
    (InitCopcConfig lazperf (readerAfterHeader 1 1) (concatRecords [copcInfoRecord])
      (concatRecords [wktExtendedRecord])).result = .ok () ∧
    ((InitCopcConfig lazperf (readerAfterHeader 1 1) (concatRecords [copcInfoRecord])
      (concatRecords [wktExtendedRecord])).state.config_.map (fun c => c.wkt)) = some [] := by
  decide

/-- C5: evaluation at the catalog holding one header, `("LASF_Projection", 2112)`, at
offset 0. The header matches both ids, and `FetchVlr` returns 0, the value it
returns when nothing matches. The catalog is the one `InitCopcConfig` builds for
a file with no standard record and that text as its first extended record, and
`ReadWktVlr` then returns the empty default instead of the text `EPSG`. -/
theorem FetchVlr_match_at_offset_zero_reads_absent :
    (InitCopcConfig lazperf (readerAfterHeader 0 1) []
      (concatRecords [wktExtendedRecord])).state.vlrs_ =
        [(0, VlrHeader.ofEvlr (las14_evlr_header_parse wktExtendedRecord.1))] ∧
    (las14_evlr_header_parse wktExtendedRecord.1).user_id = ascii "LASF_Projection" ∧
    (las14_evlr_header_parse wktExtendedRecord.1).record_id = 2112 ∧
    FetchVlr [(0, VlrHeader.ofEvlr (las14_evlr_header_parse wktExtendedRecord.1))]
      (ascii "LASF_Projection") 2112 = 0 ∧
    FetchVlr [] (ascii "LASF_Projection") 2112 = 0 ∧
    (ReadWktVlr lazperf [(0, VlrHeader.ofEvlr (las14_evlr_header_parse wktExtendedRecord.1))]
      (IStream.ofString (concatRecords [wktExtendedRecord]))).result = .ok WktVlr.default := by
  decide

/-! ## The two body readers (`ReadWktVlr`, `ReadExtraBytesVlr`) -/

/-- C6, as stated, fails: for the file made of the info record and a text record in the
standard buffer and a hierarchy page in the extended buffer, `FetchVlr` locates the
text header at offset 214 of the standard buffer, a standard header (flag clear),
and `ReadWktVlr` decodes the body from the extended buffer, at 214 + 60: the text
of the configuration is four bytes of a hierarchy entry, not `EPSG`. -/
theorem ReadWktVlr_reads_extended_buffer_for_standard_header :
    ¬ WktReadMatchesVariant
      (InitCopcConfig lazperf (readerAfterHeader 2 1)
        (concatRecords [copcInfoRecord, wktStandardRecord])
        (concatRecords [hierarchyRecord])).state.vlrs_ ∧
    FetchVlr (InitCopcConfig lazperf (readerAfterHeader 2 1)
        (concatRecords [copcInfoRecord, wktStandardRecord])
        (concatRecords [hierarchyRecord])).state.vlrs_ (ascii "LASF_Projection") 2112 = 214 ∧
    (locatedHeader (InitCopcConfig lazperf (readerAfterHeader 2 1)
        (concatRecords [copcInfoRecord, wktStandardRecord])
        (concatRecords [hierarchyRecord])).state.vlrs_
      (ascii "LASF_Projection") 2112).evlr_flag = false ∧
    (ReadWktVlr lazperf (InitCopcConfig lazperf (readerAfterHeader 2 1)
        (concatRecords [copcInfoRecord, wktStandardRecord])
        (concatRecords [hierarchyRecord])).state.vlrs_
      (IStream.ofString (concatRecords [hierarchyRecord]))).result =
        .ok ⟨bytesAt (concatRecords [hierarchyRecord]) 274 4⟩ ∧
    ((InitCopcConfig lazperf (readerAfterHeader 2 1)
        (concatRecords [copcInfoRecord, wktStandardRecord])
        (concatRecords [hierarchyRecord])).state.config_.map (fun c => c.wkt)) =
      some [0, 0, 65, 0] := by
  decide

/-- C6, amended: the buffer a body is decoded from is fixed by the reader, not by the
header. `InitCopcConfig` gives `ReadWktVlr` the stream on the extended buffer and
`ReadExtraBytesVlr` the stream on the standard buffer, with the catalog it has
built, and returns or stores what these two reads give. For any catalog and stream,
when `FetchVlr` locates a non-zero offset, `ReadWktVlr` decodes from the stream it
is given at that offset plus `evlr_header::Size`, and `ReadExtraBytesVlr` at that
offset plus `vlr_header::Size`, with the `data_length` of the located header and
whatever its flag; the catalog is left as it is. The located header has the ids
asked for, and it has the flag of the reader's buffer when every header of the
catalog with these ids has it. -/
theorem body_readers_buffer_fixed_by_reader (E : Ext) (self : PartsReader)
    (vlr_data evlr_data : List Byte)
    (hinfo : ∀ s, (E.copc_info_create s).2.data = s.data) :
    (∃ es vs : IStream,
      es = (evlrLoop E self.lazperf_header_.evlr_count (IStream.ofString evlr_data)
        (vlrLoop E self.lazperf_header_.vlr_count
          ((IStream.ofString vlr_data).seekgPos 0) []).2).1.seekgPos 0 ∧
      vs = (E.copc_info_create
        ((vlrLoop E self.lazperf_header_.vlr_count
          ((IStream.ofString vlr_data).seekgPos 0) []).1.seekgPos
            (E.COPC_OFFSET - (LAS_HEADER14_LENGTH : Int)))).2.seekgPos 0 ∧
      es.data = evlr_data ∧ vs.data = vlr_data ∧
      (∀ p, (es.seekgPos p).data = evlr_data ∧ (vs.seekgPos p).data = vlr_data) ∧
      SortedKeys (InitCopcConfig E self vlr_data evlr_data).state.vlrs_ ∧
      (∀ m, (ReadWktVlr E (InitCopcConfig E self vlr_data evlr_data).state.vlrs_ es).result
          = .error m → (InitCopcConfig E self vlr_data evlr_data).result = .error m) ∧
      (∀ wkt m, (ReadWktVlr E (InitCopcConfig E self vlr_data evlr_data).state.vlrs_ es).result
          = .ok wkt →
        (ReadExtraBytesVlr E (InitCopcConfig E self vlr_data evlr_data).state.vlrs_ vs).result
          = .error m → (InitCopcConfig E self vlr_data evlr_data).result = .error m) ∧
      ((InitCopcConfig E self vlr_data evlr_data).result = .ok () →
        ∃ wkt eb,
          (ReadWktVlr E (InitCopcConfig E self vlr_data evlr_data).state.vlrs_ es).result
            = .ok wkt ∧
          (ReadExtraBytesVlr E (InitCopcConfig E self vlr_data evlr_data).state.vlrs_ vs).result
            = .ok eb ∧
          (InitCopcConfig E self vlr_data evlr_data).state.config_.map (fun c => c.wkt)
            = some wkt.wkt ∧
          (InitCopcConfig E self vlr_data evlr_data).state.config_.map (fun c => c.extra_bytes)
            = some eb)) ∧
    (∀ (vlrs : Catalog) (s : IStream), SortedKeys vlrs →
      (FetchVlr vlrs (ascii "LASF_Projection") 2112 ≠ 0 →
        ReadWktVlr E vlrs s =
          ⟨(E.WktVlr_create
              (s.seekgPos (toStreamOff
                (addU64 (FetchVlr vlrs (ascii "LASF_Projection") 2112) E.evlr_header_Size)))
              (locatedHeader vlrs (ascii "LASF_Projection") 2112).data_length).1,
           (E.WktVlr_create
              (s.seekgPos (toStreamOff
                (addU64 (FetchVlr vlrs (ascii "LASF_Projection") 2112) E.evlr_header_Size)))
              (locatedHeader vlrs (ascii "LASF_Projection") 2112).data_length).2,
           vlrs⟩ ∧
        (FetchVlr vlrs (ascii "LASF_Projection") 2112,
          locatedHeader vlrs (ascii "LASF_Projection") 2112) ∈ vlrs ∧
        (locatedHeader vlrs (ascii "LASF_Projection") 2112).user_id = ascii "LASF_Projection" ∧
        (locatedHeader vlrs (ascii "LASF_Projection") 2112).record_id = 2112 ∧
        ((∀ e ∈ vlrs, e.2.user_id = ascii "LASF_Projection" → e.2.record_id = 2112 →
            e.2.evlr_flag = true) → WktReadMatchesVariant vlrs)) ∧
      (FetchVlr vlrs (ascii "LASF_Spec") 4 ≠ 0 →
        ReadExtraBytesVlr E vlrs s =
          ⟨(E.EbVlr_create
              (s.seekgPos (toStreamOff
                (addU64 (FetchVlr vlrs (ascii "LASF_Spec") 4) E.vlr_header_Size)))
              (locatedHeader vlrs (ascii "LASF_Spec") 4).data_length).1,
           (E.EbVlr_create
              (s.seekgPos (toStreamOff
                (addU64 (FetchVlr vlrs (ascii "LASF_Spec") 4) E.vlr_header_Size)))
              (locatedHeader vlrs (ascii "LASF_Spec") 4).data_length).2,
           vlrs⟩ ∧
        (FetchVlr vlrs (ascii "LASF_Spec") 4, locatedHeader vlrs (ascii "LASF_Spec") 4) ∈ vlrs ∧
        (locatedHeader vlrs (ascii "LASF_Spec") 4).user_id = ascii "LASF_Spec" ∧
        (locatedHeader vlrs (ascii "LASF_Spec") 4).record_id = 4 ∧
        ((∀ e ∈ vlrs, e.2.user_id = ascii "LASF_Spec" → e.2.record_id = 4 →
            e.2.evlr_flag = false) → EbReadMatchesVariant vlrs))) := by
  have hes : ((evlrLoop E self.lazperf_header_.evlr_count (IStream.ofString evlr_data)
      (vlrLoop E self.lazperf_header_.vlr_count
        ((IStream.ofString vlr_data).seekgPos 0) []).2).1.seekgPos 0).data = evlr_data := by
    rw [seekgPos_data, evlrLoop_data]
    rfl
  have hvs : ((E.copc_info_create
      ((vlrLoop E self.lazperf_header_.vlr_count
        ((IStream.ofString vlr_data).seekgPos 0) []).1.seekgPos
          (E.COPC_OFFSET - (LAS_HEADER14_LENGTH : Int)))).2.seekgPos 0).data = vlr_data := by
    rw [seekgPos_data, hinfo, seekgPos_data, vlrLoop_data, seekgPos_data]
    rfl
  refine ⟨⟨_, _, rfl, rfl, hes, hvs, fun p => ?_, InitCopcConfig_sorted E self vlr_data evlr_data,
    InitCopcConfig_body_reads E self vlr_data evlr_data _ _ rfl rfl⟩,
    fun vlrs s hs => body_readers_at E vlrs s hs⟩
  exact ⟨(seekgPos_data _ p).trans hes, (seekgPos_data _ p).trans hvs⟩

/-- Witness of C6, amended: for the file with the info record and a schema record in the
standard buffer and a hierarchy page and a text record in the extended buffer, the
text reader is given a stream on the extended buffer and the schema reader a stream
on the standard buffer; the text located at offset 284, an extended header, is read
as `EPSG` and stored in the configuration. -/
theorem body_readers_buffer_fixed_by_reader_witness :
    ∃ es vs : IStream,
      es.data = concatRecords [hierarchyRecord, wktExtendedRecord] ∧
      vs.data = concatRecords [copcInfoRecord, schemaRecord] ∧
      (ReadWktVlr lazperf
        (InitCopcConfig lazperf (readerAfterHeader 2 2)
          (concatRecords [copcInfoRecord, schemaRecord])
          (concatRecords [hierarchyRecord, wktExtendedRecord])).state.vlrs_ es).result =
        .ok ⟨ascii "EPSG"⟩ ∧
      (InitCopcConfig lazperf (readerAfterHeader 2 2)
          (concatRecords [copcInfoRecord, schemaRecord])
          (concatRecords [hierarchyRecord, wktExtendedRecord])).state.config_.map
        (fun c => c.wkt) = some (ascii "EPSG") ∧
      WktReadMatchesVariant
        (InitCopcConfig lazperf (readerAfterHeader 2 2)
          (concatRecords [copcInfoRecord, schemaRecord])
          (concatRecords [hierarchyRecord, wktExtendedRecord])).state.vlrs_ := by
  have h := body_readers_buffer_fixed_by_reader lazperf (readerAfterHeader 2 2)
    (concatRecords [copcInfoRecord, schemaRecord])
    (concatRecords [hierarchyRecord, wktExtendedRecord]) lazperf_copc_info_data
  obtain ⟨⟨es, vs, hes, _, hd1, hd2, _, hsorted, _, _, _⟩, hat⟩ := h
  refine ⟨es, vs, hd1, hd2, ?_, by decide, ?_⟩
  · rw [hes]
    decide
  · exact ((hat _ es hsorted).1 (by decide)).2.2.2.2 (by decide)

/-- C7: when no header of the catalog has the ids `("LASF_Projection", 2112)`,
`ReadWktVlr` returns the empty default text, raises nothing and leaves the stream
(nothing is sought or read) and the catalog as they were; when none has the ids
`("LASF_Spec", 4)`, `ReadExtraBytesVlr` does the same with the empty default schema. -/
theorem body_readers_absent_record_default (E : Ext) (vlrs : Catalog) (s : IStream) :
    ((∀ e ∈ vlrs, ¬ (e.2.user_id = ascii "LASF_Projection" ∧ e.2.record_id = 2112)) →
      (ReadWktVlr E vlrs s).result = .ok WktVlr.default ∧
      (ReadWktVlr E vlrs s).stream = s ∧
      (ReadWktVlr E vlrs s).vlrs = vlrs) ∧
    ((∀ e ∈ vlrs, ¬ (e.2.user_id = ascii "LASF_Spec" ∧ e.2.record_id = 4)) →
      (ReadExtraBytesVlr E vlrs s).result = .ok EbVlr.default ∧
      (ReadExtraBytesVlr E vlrs s).stream = s ∧
      (ReadExtraBytesVlr E vlrs s).vlrs = vlrs) ∧
    WktVlr.default.wkt = [] ∧ EbVlr.default.items = [] := by
  refine ⟨fun h => ?_, fun h => ?_, rfl, rfl⟩
  · have h0 := FetchVlr_zero_of_no_match vlrs _ _ h
    unfold ReadWktVlr
    simp [h0]
  · have h0 := FetchVlr_zero_of_no_match vlrs _ _ h
    unfold ReadExtraBytesVlr
    simp [h0]

/-- Witness of C7: the catalog holding only the info record has neither record, and both
readers return their empty default without moving the stream. -/
theorem body_readers_absent_record_default_witness :
    ((ReadWktVlr lazperf [(0, VlrHeader.ofVlr (las14_vlr_header_parse copcInfoRecord.1))]
        (IStream.ofString (concatRecords [hierarchyRecord]))).result = .ok WktVlr.default ∧
     (ReadWktVlr lazperf [(0, VlrHeader.ofVlr (las14_vlr_header_parse copcInfoRecord.1))]
        (IStream.ofString (concatRecords [hierarchyRecord]))).stream =
          IStream.ofString (concatRecords [hierarchyRecord])) ∧
    (ReadExtraBytesVlr lazperf [(0, VlrHeader.ofVlr (las14_vlr_header_parse copcInfoRecord.1))]
        (IStream.ofString (concatRecords [copcInfoRecord]))).result = .ok EbVlr.default :=
  ⟨⟨((body_readers_absent_record_default lazperf
        [(0, VlrHeader.ofVlr (las14_vlr_header_parse copcInfoRecord.1))]
        (IStream.ofString (concatRecords [hierarchyRecord]))).1 (by decide)).1,
    ((body_readers_absent_record_default lazperf
        [(0, VlrHeader.ofVlr (las14_vlr_header_parse copcInfoRecord.1))]
        (IStream.ofString (concatRecords [hierarchyRecord]))).1 (by decide)).2.1⟩,
   ((body_readers_absent_record_default lazperf
        [(0, VlrHeader.ofVlr (las14_vlr_header_parse copcInfoRecord.1))]
        (IStream.ofString (concatRecords [copcInfoRecord]))).2.1 (by decide)).1⟩

/-! ## Loading a page (`ReadPage`) -/

/-- C8: page-load atomicity. `ReadPage` either succeeds, returns the full list of
`byte_size / ENTRY_SIZE` entries and leaves the page with `loaded = true` and
nothing else changed, or fails with an error and leaves the page (its `loaded`
flag and every other field) and the reader exactly as they were; a failed call
returns no list. -/
theorem ReadPage_atomic (E : Ext) (self : PartsReader) (page : PageInternal) :
    (∃ out, (ReadPage E self page).result = .ok out ∧
        out.length = pageEntryCount E page ∧
        (ReadPage E self page).state.1.loaded = true ∧
        (ReadPage E self page).state = ({ page with loaded := true }, self)) ∨
    (∃ msg, (ReadPage E self page).result = .error msg ∧
        (ReadPage E self page).state.1.loaded = page.loaded ∧
        (ReadPage E self page).state = (page, self)) := by
  cases hv : E.Page_IsValid page with
  | false =>
    right
    rw [ReadPage_of_invalid E self page hv]
    exact ⟨_, rfl, rfl, rfl⟩
  | true =>
    rw [ReadPage_of_valid E self page hv]
    cases hr : readEntries E (pageEntryCount E page)
        ((IStream.ofString self.evlr_data_).seekgPos (toStreamOff (pageStart self page))) [] with
    | error e => right; exact ⟨_, rfl, rfl, rfl⟩
    | ok out =>
      left
      refine ⟨out, rfl, ?_, rfl, rfl⟩
      simpa using readEntries_length E _ _ _ _ hr

/-- C9: `ReadPage` fails exactly when the page is not valid or one of its first
`byte_size / ENTRY_SIZE` entries, decoded from the page's byte range, is not valid.
A page that is not valid is rejected with the page error whatever its entries are;
on a valid page the error names an invalid entry of the page. -/
theorem ReadPage_fails_iff (E : Ext) (self : PartsReader) (page : PageInternal)
    (hlen : self.evlr_data_.length < 2 ^ 63) :
    ((∃ msg, (ReadPage E self page).result = .error msg) ↔
      (E.Page_IsValid page = false ∨
        ∃ i, i < pageEntryCount E page ∧ E.Entry_IsValid (pageEntry E self page i) = false)) ∧
    (E.Page_IsValid page = false →
      (ReadPage E self page).result = .error invalidPageError) ∧
    (E.Page_IsValid page = true →
      ∀ msg, (ReadPage E self page).result = .error msg →
        ∃ i, i < pageEntryCount E page ∧ E.Entry_IsValid (pageEntry E self page i) = false ∧
          msg = "Entry is invalid! " ++ E.Entry_ToString (pageEntry E self page i)) := by
  have hat : StreamAt self.evlr_data_
      ((IStream.ofString self.evlr_data_).seekgPos (toStreamOff (pageStart self page)))
      (pageStart self page) :=
    seekgPos_streamAt _ _ (by unfold pageStart subU64; omega) hlen
  have hrun := readEntries_ok_iff E self.evlr_data_ (pageEntryCount E page) _ _ [] hat
  have hvalid : E.Page_IsValid page = true →
      ∀ msg, (ReadPage E self page).result = .error msg →
        ∃ i, i < pageEntryCount E page ∧ E.Entry_IsValid (pageEntry E self page i) = false ∧
          msg = "Entry is invalid! " ++ E.Entry_ToString (pageEntry E self page i) := by
    intro hv msg hmsg
    rw [ReadPage_of_valid E self page hv] at hmsg
    by_cases hbad : ∃ e ∈ entriesAt E self.evlr_data_ (pageStart self page)
        (pageEntryCount E page), E.Entry_IsValid e = false
    · obtain ⟨e, he, hev, hr⟩ := hrun.2 hbad
      rw [hr] at hmsg
      obtain ⟨i, hi, rfl⟩ := (mem_entriesAt_iff E self page _ e).mp he
      exact ⟨i, hi, hev, (Except.error.inj hmsg).symm⟩
    · have hall : ∀ e ∈ entriesAt E self.evlr_data_ (pageStart self page)
          (pageEntryCount E page), E.Entry_IsValid e = true := by
        intro e he
        cases hev : E.Entry_IsValid e with
        | true => rfl
        | false => exact absurd ⟨e, he, hev⟩ hbad
      rw [hrun.1 hall] at hmsg
      cases hmsg
  refine ⟨⟨?_, ?_⟩, ?_, hvalid⟩
  · rintro ⟨msg, hmsg⟩
    cases hv : E.Page_IsValid page with
    | false => exact Or.inl rfl
    | true =>
      obtain ⟨i, hi, hev, _⟩ := hvalid hv msg hmsg
      exact Or.inr ⟨i, hi, hev⟩
  · rintro (hv | ⟨i, hi, hev⟩)
    · rw [ReadPage_of_invalid E self page hv]
      exact ⟨_, rfl⟩
    · cases hv : E.Page_IsValid page with
      | false =>
        rw [ReadPage_of_invalid E self page hv]
        exact ⟨_, rfl⟩
      | true =>
        rw [ReadPage_of_valid E self page hv]
        obtain ⟨e, _, _, hr⟩ := hrun.2
          ⟨pageEntry E self page i, (mem_entriesAt_iff E self page _ _).mpr ⟨i, hi, rfl⟩, hev⟩
        rw [hr]
        exact ⟨_, rfl⟩
  · intro hv
    rw [ReadPage_of_invalid E self page hv]

/-- Witness of C9: on the concrete file, loading the hierarchy page succeeds, and every
one of its seven entries is valid. -/
theorem ReadPage_fails_iff_witness :
    ¬ (∃ msg, (ReadPage lazperf readerWithHierarchy hierarchyPage).result = .error msg) ∧
    ∀ i, i < 7 → lazperf.Entry_IsValid (pageEntry lazperf readerWithHierarchy hierarchyPage i)
      = true := by
  have h := (ReadPage_fails_iff lazperf readerWithHierarchy hierarchyPage (by decide)).1
  have hno : ¬ (∃ msg, (ReadPage lazperf readerWithHierarchy hierarchyPage).result
      = .error msg) := by
    rintro ⟨msg, hmsg⟩
    have hok : (ReadPage lazperf readerWithHierarchy hierarchyPage).result.toBool = true := by
      decide
    rw [hmsg] at hok
    cases hok
  refine ⟨hno, fun i hi => ?_⟩
  cases hv : lazperf.Entry_IsValid (pageEntry lazperf readerWithHierarchy hierarchyPage i) with
  | true => rfl
  | false => exact absurd (h.mpr (Or.inr ⟨i, hi, hv⟩)) hno

/-- C10: on a successful `ReadPage` for a page whose absolute offset is at least
`evlr_offset`, the result has exactly floor(`byte_size` / `ENTRY_SIZE`) entries,
every one of them valid, and the `i`-th is the decoding of the `ENTRY_SIZE` bytes
of the extended buffer at `(page.offset - evlr_offset) + i * ENTRY_SIZE`. -/
theorem ReadPage_entries (E : Ext) (self : PartsReader) (page : PageInternal)
    (out : List Entry)
    (hok : (ReadPage E self page).result = .ok out)
    (hoff : self.evlr_offset ≤ page.offset)
    (hu64 : page.offset < 2 ^ 64)
    (hlen : self.evlr_data_.length < 2 ^ 63) :
    out.length = (page.byte_size / (E.ENTRY_SIZE : Int)).toNat ∧
    (∀ e ∈ out, E.Entry_IsValid e = true) ∧
    (∀ i, i < out.length →
      out[i]? = some (E.Entry_parse
        (bytesAt self.evlr_data_ ((page.offset - self.evlr_offset) + i * E.ENTRY_SIZE)
          E.ENTRY_SIZE))) ∧
    ((page.offset - self.evlr_offset) + out.length * E.ENTRY_SIZE ≤ self.evlr_data_.length →
      ∀ i, i < out.length →
        (bytesAt self.evlr_data_ ((page.offset - self.evlr_offset) + i * E.ENTRY_SIZE)
          E.ENTRY_SIZE).length = E.ENTRY_SIZE) := by
  have hstart : pageStart self page = page.offset - self.evlr_offset :=
    subU64_of_le _ _ hoff hu64
  have hat : StreamAt self.evlr_data_
      ((IStream.ofString self.evlr_data_).seekgPos (toStreamOff (pageStart self page)))
      (pageStart self page) :=
    seekgPos_streamAt _ _ (by unfold pageStart subU64; omega) hlen
  have hrun := readEntries_ok_iff E self.evlr_data_ (pageEntryCount E page) _ _ [] hat
  have hv : E.Page_IsValid page = true := by
    cases hv : E.Page_IsValid page with
    | true => rfl
    | false =>
      rw [ReadPage_of_invalid E self page hv] at hok
      cases hok
  rw [ReadPage_of_valid E self page hv] at hok
  have hall : ∀ e ∈ entriesAt E self.evlr_data_ (pageStart self page)
      (pageEntryCount E page), E.Entry_IsValid e = true := by
    intro e he
    cases hev : E.Entry_IsValid e with
    | true => rfl
    | false =>
      obtain ⟨e', _, _, hr⟩ := hrun.2 ⟨e, he, hev⟩
      rw [hr] at hok
      cases hok
  rw [hrun.1 hall] at hok
  have hout : out = entriesAt E self.evlr_data_ (pageStart self page) (pageEntryCount E page) := by
    simpa using (Except.ok.inj hok).symm
  subst hout
  refine ⟨?_, hall, fun i hi => ?_, fun hin i hi => ?_⟩
  · rw [entriesAt_length]
    exact tdiv_toNat_eq_floor _ _
  · rw [entriesAt_length] at hi
    rw [entriesAt_getElem? E _ _ _ i hi, hstart]
  · have hmul : (i + 1) * E.ENTRY_SIZE ≤
        (entriesAt E self.evlr_data_ (pageStart self page) (pageEntryCount E page)).length
          * E.ENTRY_SIZE := Nat.mul_le_mul_right _ hi
    rw [Nat.add_mul] at hmul
    simp only [bytesAt, List.length_take, List.length_drop]
    omega

/-- Witness of C10: the hierarchy page of the concrete file loads into seven entries. -/
theorem ReadPage_entries_witness :
    (entriesAt lazperf readerWithHierarchy.evlr_data_ 60 7).length = (7 : Nat) :=
  (ReadPage_entries lazperf readerWithHierarchy hierarchyPage
    (entriesAt lazperf readerWithHierarchy.evlr_data_ 60 7) (by decide) (by decide) (by decide)
    (by decide)).1

/-! ## Frame and soundness of the catalog functions -/

/-- C16: the catalog is not mutated by its readers. `ReadWktVlr` and `ReadExtraBytesVlr`
leave the catalog they are given exactly as it was (same offsets, same headers),
whether they decode a body or not: the offset they index with is, when not 0, a key
of the catalog, so `operator[]` inserts nothing. `FetchVlr` takes the catalog by
const reference and only returns an offset. -/
theorem catalog_readers_do_not_mutate (E : Ext) (vlrs : Catalog) (s : IStream)
    (user_id : List Byte) (record_id : Nat) :
    (ReadWktVlr E vlrs s).vlrs = vlrs ∧
    (ReadExtraBytesVlr E vlrs s).vlrs = vlrs ∧
    (FetchVlr vlrs user_id record_id ≠ 0 →
      (∃ h, mapFind (FetchVlr vlrs user_id record_id) vlrs = some h) ∧
      (mapIndex vlrs (FetchVlr vlrs user_id record_id)).2 = vlrs) := by
  refine ⟨ReadWktVlr_vlrs E vlrs s, ReadExtraBytesVlr_vlrs E vlrs s, fun h => ?_⟩
  obtain ⟨v, hv, _⟩ := FetchVlr_mem vlrs user_id record_id h
  exact ⟨mapFind_isSome_of_mem vlrs _ v hv, mapIndex_snd_of_mem vlrs _ v hv⟩

/-- Witness of C16: in the catalog of the file with the info record and a schema record,
the schema is located at offset 214, a key of the catalog, and indexing there leaves
the catalog as it is. -/
theorem catalog_readers_do_not_mutate_witness :
    (mapIndex (InitCopcConfig lazperf (readerAfterHeader 2 0)
        (concatRecords [copcInfoRecord, schemaRecord]) []).state.vlrs_
      (FetchVlr (InitCopcConfig lazperf (readerAfterHeader 2 0)
        (concatRecords [copcInfoRecord, schemaRecord]) []).state.vlrs_ (ascii "LASF_Spec") 4)).2 =
      (InitCopcConfig lazperf (readerAfterHeader 2 0)
        (concatRecords [copcInfoRecord, schemaRecord]) []).state.vlrs_ :=
  ((catalog_readers_do_not_mutate lazperf
      (InitCopcConfig lazperf (readerAfterHeader 2 0)
        (concatRecords [copcInfoRecord, schemaRecord]) []).state.vlrs_
      (IStream.ofString []) (ascii "LASF_Spec") 4).2.2 (by decide)).2

/-- C17: after a successful `ReadHeader` the public `point_offset` and `evlr_offset` are
the point-data offset and the extended-record offset of the decoded file header,
verbatim; the stored header differs from the decoded one in the point format only,
so these two fields of it are the decoded ones too; with the LAS 1.4 layout they are
the little-endian values of bytes 96..99 and 235..242 of the input. -/
theorem ReadHeader_offsets_verbatim (E : Ext) (self : PartsReader) (input : List Byte)
    (hok : (ReadHeader E self input).result = .ok ()) :
    (ReadHeader E self input).state.point_offset =
      (header14.create E (IStream.ofString input)).1.point_offset ∧
    (ReadHeader E self input).state.evlr_offset =
      (header14.create E (IStream.ofString input)).1.evlr_offset ∧
    (ReadHeader E self input).state.lazperf_header_ =
      { (header14.create E (IStream.ofString input)).1 with
        point_format_id :=
          (header14.create E (IStream.ofString input)).1.point_format_id &&& 0x3f } ∧
    (ReadHeader E self input).state.point_offset =
      (ReadHeader E self input).state.lazperf_header_.point_offset ∧
    (ReadHeader E self input).state.evlr_offset =
      (ReadHeader E self input).state.lazperf_header_.evlr_offset ∧
    (E.header14_parse = las14_header_parse → E.header14_Size = 375 →
      (ReadHeader E self input).state.point_offset = uintAt input 96 4 ∧
      (ReadHeader E self input).state.evlr_offset = uintAt input 235 8) := by
  have hlen := ReadHeader_ok_length E self input hok
  rw [ReadHeader_of_length_eq E self input hlen]
  exact ⟨rfl, rfl, rfl, rfl, rfl, fun hp hs => las14_offsets_bytes E hp hs input hlen⟩

/-- Witness of C17: a header with point-format byte 0xC2, point offset 1000 and
extended-record offset 5000 gives these two offsets. -/
theorem ReadHeader_offsets_verbatim_witness :
    (ReadHeader lazperf PartsReader.default (headerBytes 0xC2 1000 1 5000 1)).state.point_offset
      = 1000 ∧
    (ReadHeader lazperf PartsReader.default (headerBytes 0xC2 1000 1 5000 1)).state.evlr_offset
      = 5000 :=
  ⟨((ReadHeader_offsets_verbatim lazperf PartsReader.default (headerBytes 0xC2 1000 1 5000 1)
      (by decide)).1).trans (by decide),
   ((ReadHeader_offsets_verbatim lazperf PartsReader.default (headerBytes 0xC2 1000 1 5000 1)
      (by decide)).2.1).trans (by decide)⟩

/-- C18: `FetchVlr` is sound. When it returns a non-zero offset, the catalog has an entry
at that offset whose header has exactly the `user_id` and `record_id` asked for; in a
catalog with the key order of a `std::map` that entry is the one stored at the
offset. -/
theorem FetchVlr_sound (vlrs : Catalog) (user_id : List Byte) (record_id : Nat)
    (h : FetchVlr vlrs user_id record_id ≠ 0) :
    ∃ v, (FetchVlr vlrs user_id record_id, v) ∈ vlrs ∧
      v.user_id = user_id ∧ v.record_id = record_id ∧
      (SortedKeys vlrs → mapFind (FetchVlr vlrs user_id record_id) vlrs = some v) := by
  obtain ⟨v, hv, hu, hr⟩ := FetchVlr_mem vlrs user_id record_id h
  exact ⟨v, hv, hu, hr, fun hs => mapFind_of_mem_sorted vlrs _ v hs hv⟩

/-- Witness of C18: in the catalog of the file with the info record and a schema record,
`FetchVlr` returns 214 for `("LASF_Spec", 4)`, and a header with these ids is there. -/
theorem FetchVlr_sound_witness :
    ∃ v, (FetchVlr (InitCopcConfig lazperf (readerAfterHeader 2 0)
        (concatRecords [copcInfoRecord, schemaRecord]) []).state.vlrs_ (ascii "LASF_Spec") 4, v) ∈
        (InitCopcConfig lazperf (readerAfterHeader 2 0)
          (concatRecords [copcInfoRecord, schemaRecord]) []).state.vlrs_ ∧
      v.user_id = ascii "LASF_Spec" ∧ v.record_id = 4 :=
  (FetchVlr_sound _ (ascii "LASF_Spec") 4 (by decide)).imp (fun _ hv => ⟨hv.1, hv.2.1, hv.2.2.1⟩)

/-- C19: the catalog left by `InitCopcConfig` is a function of the two buffers and of the
two record counts of the decoded header. Two readers with the same counts get the
same catalog from the same buffers, whatever catalog each held before; calling
`InitCopcConfig` again on the reader it left, with the same buffers, gives the same
catalog; and a header of the earlier catalog is in the new one only if the new
buffers put it there. -/
theorem InitCopcConfig_catalog_depends_on_buffers_only (E : Ext) (self other : PartsReader)
    (vlr_data evlr_data : List Byte)
    (hv : other.lazperf_header_.vlr_count = self.lazperf_header_.vlr_count)
    (he : other.lazperf_header_.evlr_count = self.lazperf_header_.evlr_count) :
    (InitCopcConfig E other vlr_data evlr_data).state.vlrs_ =
      (InitCopcConfig E self vlr_data evlr_data).state.vlrs_ ∧
    (InitCopcConfig E (InitCopcConfig E self vlr_data evlr_data).state
        vlr_data evlr_data).state.vlrs_ =
      (InitCopcConfig E self vlr_data evlr_data).state.vlrs_ ∧
    (InitCopcConfig E self vlr_data evlr_data).state.vlrs_ =
      (InitCopcConfig E { self with vlrs_ := [] } vlr_data evlr_data).state.vlrs_ := by
  refine ⟨?_, ?_, ?_⟩
  · rw [InitCopcConfig_vlrs, InitCopcConfig_vlrs, hv, he]
  · rw [InitCopcConfig_vlrs, InitCopcConfig_header, ← InitCopcConfig_vlrs]
  · rw [InitCopcConfig_vlrs, InitCopcConfig_vlrs]

/-- Witness of C19: a reader that already holds the catalog of another file (a text
record at offset 214) gets, from the buffers of the file with the info record and a
schema record, the catalog a fresh reader gets; the text header is gone. -/
theorem InitCopcConfig_catalog_depends_on_buffers_only_witness :
    (InitCopcConfig lazperf
        (InitCopcConfig lazperf (readerAfterHeader 2 0)
          (concatRecords [copcInfoRecord, wktStandardRecord]) []).state
        (concatRecords [copcInfoRecord, schemaRecord]) []).state.vlrs_ =
      (InitCopcConfig lazperf (readerAfterHeader 2 0)
        (concatRecords [copcInfoRecord, schemaRecord]) []).state.vlrs_ :=
  (InitCopcConfig_catalog_depends_on_buffers_only lazperf (readerAfterHeader 2 0)
    (InitCopcConfig lazperf (readerAfterHeader 2 0)
      (concatRecords [copcInfoRecord, wktStandardRecord]) []).state
    (concatRecords [copcInfoRecord, schemaRecord]) [] (by decide) (by decide)).1

/-! ## Truncated metadata buffers (`InitCopcConfig`) -/

/-- C11, as stated, fails: `ReadPage` reads the buffer again on the second call. On the
concrete file the first call returns the seven entries of the page (7 points each)
and leaves the page loaded, with nothing cached on it; after the reader has been
given another extended buffer, a second call on that same, loaded, page returns the
seven entries of the new buffer (9 points each), not the sequence of the first
call. -/
theorem ReadPage_second_call_decodes_again :
    (ReadPage lazperf readerWithHierarchy hierarchyPage).result =
      .ok (entriesAt lazperf (concatRecords [hierarchyRecord]) 60 7) ∧
    (ReadPage lazperf readerWithHierarchy hierarchyPage).state.1.loaded = true ∧
    (ReadPage lazperf readerWithHierarchy hierarchyPage).state.1.entries = [] ∧
    (ReadPage lazperf readerWithHierarchyB
        (ReadPage lazperf readerWithHierarchy hierarchyPage).state.1).result =
      .ok (entriesAt lazperf (concatRecords [hierarchyRecordB]) 60 7) ∧
    (ReadPage lazperf readerWithHierarchyB
        (ReadPage lazperf readerWithHierarchy hierarchyPage).state.1).result ≠
      (ReadPage lazperf readerWithHierarchy hierarchyPage).result := by
  have h1 : (ReadPage lazperf readerWithHierarchy hierarchyPage).result =
      .ok (entriesAt lazperf (concatRecords [hierarchyRecord]) 60 7) := by decide
  have h2 : (ReadPage lazperf readerWithHierarchyB
        (ReadPage lazperf readerWithHierarchy hierarchyPage).state.1).result =
      .ok (entriesAt lazperf (concatRecords [hierarchyRecordB]) 60 7) := by decide
  refine ⟨h1, by decide, by decide, h2, ?_⟩
  rw [h1, h2]
  decide

/-- C11, amended: `ReadPage` keeps no cache and does not test `loaded`; every call decodes
the entries from the extended buffer the reader holds. A second call on the page and
the reader left by a successful first call returns the identical sequence and leaves
the same state, provided the page is still valid once marked loaded; and the result
for a valid page is fixed by the page's offset and size and by the reader's buffer
and `evlr_offset`, whatever the `loaded` flag and the rest of the page are. -/
theorem ReadPage_twice_same_sequence (E : Ext) (self : PartsReader) (page : PageInternal)
    (out : List Entry)
    (hok : (ReadPage E self page).result = .ok out)
    (hstill : E.Page_IsValid (ReadPage E self page).state.1 = true) :
    ReadPage E (ReadPage E self page).state.2 (ReadPage E self page).state.1 =
      ⟨.ok out, (ReadPage E self page).state⟩ ∧
    (∀ (other : PartsReader) (page2 : PageInternal),
      E.Page_IsValid page2 = true →
      page2.offset = page.offset → page2.byte_size = page.byte_size →
      other.evlr_data_ = self.evlr_data_ → other.evlr_offset = self.evlr_offset →
      (ReadPage E other page2).result = .ok out) := by
  have hv : E.Page_IsValid page = true := by
    cases hv : E.Page_IsValid page with
    | true => rfl
    | false =>
      rw [ReadPage_of_invalid E self page hv] at hok
      cases hok
  have hrun : readEntries E (pageEntryCount E page)
      ((IStream.ofString self.evlr_data_).seekgPos (toStreamOff (pageStart self page))) []
      = .ok out := by
    rw [ReadPage_of_valid E self page hv] at hok
    cases hr : readEntries E (pageEntryCount E page)
        ((IStream.ofString self.evlr_data_).seekgPos (toStreamOff (pageStart self page))) [] with
    | error e => rw [hr] at hok; cases hok
    | ok l =>
      rw [hr] at hok
      exact congrArg _ (Except.ok.inj hok)
  have hstate : (ReadPage E self page).state = ({ page with loaded := true }, self) := by
    rw [ReadPage_of_valid E self page hv, hrun]
  constructor
  · rw [hstate] at hstill ⊢
    rw [ReadPage_of_valid E self _ hstill]
    have hrun2 : readEntries E (pageEntryCount E { page with loaded := true })
        ((IStream.ofString self.evlr_data_).seekgPos
          (toStreamOff (pageStart self { page with loaded := true }))) [] = .ok out := hrun
    rw [hrun2]
  · intro other page2 hv2 ho hb hd he
    rw [ReadPage_of_valid E other page2 hv2]
    have hrun2 : readEntries E (pageEntryCount E page2)
        ((IStream.ofString other.evlr_data_).seekgPos (toStreamOff (pageStart other page2))) []
        = .ok out := by
      unfold pageEntryCount pageStart at hrun ⊢
      rw [hb, ho, hd, he]
      exact hrun
    rw [hrun2]

/-- Witness of C11, amended: on the concrete file a second call on the loaded page, the
reader unchanged, returns the seven entries of the first call. -/
theorem ReadPage_twice_same_sequence_witness :
    ReadPage lazperf (ReadPage lazperf readerWithHierarchy hierarchyPage).state.2
        (ReadPage lazperf readerWithHierarchy hierarchyPage).state.1 =
      ⟨.ok (entriesAt lazperf (concatRecords [hierarchyRecord]) 60 7),
        (ReadPage lazperf readerWithHierarchy hierarchyPage).state⟩ :=
  (ReadPage_twice_same_sequence lazperf readerWithHierarchy hierarchyPage
    (entriesAt lazperf (concatRecords [hierarchyRecord]) 60 7) (by decide) (by decide)).1

/-! ## The hierarchy traversal (`GetAllChildrenOfPage`) -/

/-- C12: invalid-key short circuit. For a key that is not valid `GetAllChildrenOfPage`
returns the empty sequence and raises nothing; the key is tested before anything
else is called, so no node is resolved and no page loaded: the reader, and with it
the hierarchy (root page, `seen_pages`, the `loaded` flag of every page), is what it
was. -/
theorem GetAllChildrenOfPage_invalid_key (B : Base) (self : PartsReader) (key : VoxelKey)
    (h : B.Key_IsValid key = false) :
    GetAllChildrenOfPage B self key = some ⟨.ok [], self⟩ ∧
    (∀ r, GetAllChildrenOfPage B self key = some r →
      r.result = .ok [] ∧ r.state = self ∧ r.state.hierarchy_ = self.hierarchy_) := by
  have heq : GetAllChildrenOfPage B self key = some ⟨.ok [], self⟩ := by
    unfold GetAllChildrenOfPage
    simp [h]
  refine ⟨heq, fun r hr => ?_⟩
  rw [heq] at hr
  cases hr
  exact ⟨rfl, rfl, rfl⟩

/-- Witness of C12: on the concrete hierarchy the key `(1, 2, 0, 0)`, out of the range of
level 1, gives the empty sequence and leaves the reader as it was. -/
theorem GetAllChildrenOfPage_invalid_key_witness :
    GetAllChildrenOfPage (specBase lazperf isSubPage 4) readerWithTree ⟨1, 2, 0, 0⟩ =
      some ⟨.ok [], readerWithTree⟩ :=
  (GetAllChildrenOfPage_invalid_key (specBase lazperf isSubPage 4) readerWithTree ⟨1, 2, 0, 0⟩
    (by decide)).1

/-- C13: for a valid key whose resolution returns a node and leaves no page registered at
the key, `GetAllChildrenOfPage` returns, with at most one node: the one-element
sequence holding the resolved node when that node is valid, the empty sequence
otherwise; the reader is left as the resolution left it. -/
theorem GetAllChildrenOfPage_no_page (B : Base) (self : PartsReader) (key : VoxelKey)
    (found : Res PartsReader Node) (node : Node)
    (hk : B.Key_IsValid key = true)
    (hf : B.FindNode self key = some found)
    (hn : found.result = .ok node)
    (hp : B.PageExists found.state key = false) :
    GetAllChildrenOfPage B self key =
      some ⟨.ok (if B.Node_IsValid node = true then [node] else []), found.state⟩ ∧
    (∀ r out, GetAllChildrenOfPage B self key = some r → r.result = .ok out →
      out.length ≤ 1 ∧
      (B.Node_IsValid node = true → out = [node]) ∧
      (B.Node_IsValid node = false → out = [])) := by
  have heq : GetAllChildrenOfPage B self key =
      some ⟨.ok (if B.Node_IsValid node = true then [node] else []), found.state⟩ := by
    unfold GetAllChildrenOfPage
    simp [hk, hf, hn, hp]
  refine ⟨heq, fun r out hr ho => ?_⟩
  rw [heq] at hr
  cases hr
  cases hv : B.Node_IsValid node with
  | true =>
    simp only [hv, if_true, Except.ok.injEq] at ho
    subst ho
    simp
  | false =>
    simp only [hv, Bool.false_eq_true, if_false, Except.ok.injEq] at ho
    subst ho
    simp

/-- Witness of C13: on the concrete hierarchy the key `(1, 1, 0, 0)` names a leaf of the
root page and no page; the result is the one node of that leaf, with its 5 points. -/
theorem GetAllChildrenOfPage_no_page_witness :
    (GetAllChildrenOfPage (specBase lazperf isSubPage 4) readerWithTree ⟨1, 1, 0, 0⟩).map
      (fun r => r.result) = some (.ok [⟨⟨1, 1, 0, 0⟩, 2000, 65, 5⟩]) := by
  have h := (GetAllChildrenOfPage_no_page (specBase lazperf isSubPage 4) readerWithTree
    ⟨1, 1, 0, 0⟩
    ((specFindNode lazperf isSubPage 4 readerWithTree ⟨1, 1, 0, 0⟩).getD
      ⟨.ok Node.notFound, readerWithTree⟩)
    ⟨⟨1, 1, 0, 0⟩, 2000, 65, 5⟩ (by decide) (by decide) (by decide) (by decide)).1
  rw [h]
  decide

/-- C15: when a page is registered at the key, the sequence `GetAllChildrenOfPage` returns
holds only leaf point-entries with a non-zero point count: no entry that denotes a
sub-page and no entry with `point_count == 0`, of that page or of a sub-page below
it, is in the result. This holds with `LoadPageHierarchy` as the spec describes it,
for a page registered when the source tests it (after the resolution of the key),
whatever the resolution does; and, with the resolution of the spec too, for a page
registered when the call is made. -/
theorem GetAllChildrenOfPage_page_only_nonempty_leaves (E : Ext) (isPage : Entry → Bool)
    (fuel : Nat) (B : Base)
    (hB : B.LoadPageHierarchy = specLoadPageHierarchy E isPage fuel)
    (self : PartsReader) (key : VoxelKey) (r : Res PartsReader (List Node)) (out : List Node)
    (hr : GetAllChildrenOfPage B self key = some r) (ho : r.result = .ok out) :
    ((∃ found, B.FindNode self key = some found ∧ B.PageExists found.state key = true) →
      OnlyNonEmptyLeaves isPage out) ∧
    (B.FindNode = specFindNode E isPage fuel →
      B.PageExists = (fun self key => (seenPage self key).isSome) →
      B.PageExists self key = true → OnlyNonEmptyLeaves isPage out) := by
  have hnil : OnlyNonEmptyLeaves isPage [] := by
    intro n hn
    cases hn
  have main : (∃ found, B.FindNode self key = some found ∧
      B.PageExists found.state key = true) → OnlyNonEmptyLeaves isPage out := by
    rintro ⟨found, hf, hp⟩
    unfold GetAllChildrenOfPage at hr
    by_cases hk : B.Key_IsValid key = false
    · simp only [hk, if_true, Option.some.injEq] at hr
      subst hr
      cases ho
      exact hnil
    · have hk' : B.Key_IsValid key = true := by simpa using hk
      simp only [hk', Bool.true_eq_false, if_false, hf] at hr
      cases hres : found.result with
      | error m =>
        simp only [hres, Option.some.injEq] at hr
        subst hr
        cases ho
      | ok node =>
        simp only [hres, hp, Bool.true_eq_false, if_false, hB] at hr
        exact specLoadPageHierarchy_onlyNonEmptyLeaves E isPage fuel _ _ _ r out hnil hr ho
  refine ⟨main, fun hF hP hreg => ?_⟩
  by_cases hk : B.Key_IsValid key = false
  · unfold GetAllChildrenOfPage at hr
    simp only [hk, if_true, Option.some.injEq] at hr
    subst hr
    cases ho
    exact hnil
  · have hk' : B.Key_IsValid key = true := by simpa using hk
    cases hfind : B.FindNode self key with
    | none =>
      unfold GetAllChildrenOfPage at hr
      simp only [hk', Bool.true_eq_false, if_false, hfind] at hr
      cases hr
    | some found =>
      refine main ⟨found, hfind, ?_⟩
      rw [hP] at hreg ⊢
      rw [hF] at hfind
      exact specFindNode_keeps E isPage key fuel self key found hreg hfind

/-- Witness of C15: on the concrete hierarchy the root key has a page; the call returns the
leaf of the sub-page (7 points) and the non-empty leaf of the root page (5 points),
and neither the sub-page entry nor the leaf with 0 points. -/
theorem GetAllChildrenOfPage_page_only_nonempty_leaves_witness :
    (GetAllChildrenOfPage (specBase lazperf isSubPage 4) readerWithTree VoxelKey.RootKey).map
        (fun r => r.result) =
      some (.ok [⟨⟨1, 0, 0, 0⟩, 3000, 80, 7⟩, ⟨⟨1, 1, 0, 0⟩, 2000, 65, 5⟩]) ∧
    OnlyNonEmptyLeaves isSubPage [⟨⟨1, 0, 0, 0⟩, 3000, 80, 7⟩, ⟨⟨1, 1, 0, 0⟩, 2000, 65, 5⟩] :=
  ⟨by decide,
   (GetAllChildrenOfPage_page_only_nonempty_leaves lazperf isSubPage 4
      (specBase lazperf isSubPage 4) rfl readerWithTree VoxelKey.RootKey
      ((GetAllChildrenOfPage (specBase lazperf isSubPage 4) readerWithTree
        VoxelKey.RootKey).getD ⟨.ok [], readerWithTree⟩)
      [⟨⟨1, 0, 0, 0⟩, 3000, 80, 7⟩, ⟨⟨1, 1, 0, 0⟩, 2000, 65, 5⟩]
      (by decide) (by decide)).2 rfl rfl (by decide)⟩

end copc
